import Mathlib

/-!
Shallow embedding of the FireBot paper-trading execution core
(`firebot/execution/portfolio.py`, `firebot/execution/engine.py`,
`firebot/backtesting/engine.py`, `firebot/backtesting/forward.py`) and
proofs of the specified properties.

Python `Decimal` values are modelled as exact rationals (`ℚ`); the
explicit `Decimal.quantize` calls of the source are modelled by
`roundHalfEven`-based rounding (the default `Decimal` rounding mode is
ROUND_HALF_EVEN).  Python `dict` (insertion-ordered, unique keys) is
modelled as an association list.  Wall-clock `datetime` fields
(`FillResult.timestamp`, `Order.timestamp`) carry no simulated
information and are omitted.  A method that can `raise` is embedded as
an `Except String` value; in the source every `raise` precedes the
first state mutation of the method, so an error result corresponds to
an unchanged object.
-/

namespace FireBot

/-! ### Association-list model of Python dict -/

def lookupA {α : Type} (m : List (String × α)) (k : String) : Option α :=
  match m with
  | [] => none
  | (k', v) :: rest => if k' = k then some v else lookupA rest k

/-- `d[k] = v`: replace in place when the key is present, else append. -/
def upsertA {α : Type} (m : List (String × α)) (k : String) (v : α) :
    List (String × α) :=
  match m with
  | [] => [(k, v)]
  | (k', v') :: rest =>
      if k' = k then (k, v) :: rest else (k', v') :: upsertA rest k v

/-- `del d[k]`: drop the entry with the given key. -/
def eraseA {α : Type} (m : List (String × α)) (k : String) :
    List (String × α) :=
  match m with
  | [] => []
  | (k', v') :: rest => if k' = k then rest else (k', v') :: eraseA rest k

def keysA {α : Type} (m : List (String × α)) : List String :=
  m.map Prod.fst

def sumA {α : Type} (m : List (String × α)) (f : String → α → ℚ) : ℚ :=
  (m.map (fun p => f p.1 p.2)).sum

/-! ### Decimal quantization (default rounding: half-even) -/

/-- Round a rational to the nearest integer, ties to even. -/
def roundHalfEven (x : ℚ) : ℤ :=
  if x - ⌊x⌋ < 1/2 then ⌊x⌋
  else if 1/2 < x - ⌊x⌋ then ⌊x⌋ + 1
  else if ⌊x⌋ % 2 = 0 then ⌊x⌋ else ⌊x⌋ + 1

/-- `Decimal.quantize` to a multiple of `step` (half-even). -/
def quantAt (step : ℚ) (x : ℚ) : ℚ :=
  (roundHalfEven (x / step) : ℚ) * step

/-- `quantize(Decimal("0.01"))` -/
def quant2 : ℚ → ℚ := quantAt (1/100)

/-- `quantize(Decimal("0.0001"))` -/
def quant4 : ℚ → ℚ := quantAt (1/10000)

/-- `quantize(Decimal("1"))` -/
def quant1 : ℚ → ℚ := quantAt 1

/-- Value semantics of an inexact `Decimal` arithmetic result under
Python's default context, which this repository never alters:
`getcontext().prec = 28` significant digits with `ROUND_HALF_EVEN`.
For `x ≠ 0` the scale `Int.log 10 |x| - 27` places `x` in
`[10^27, 10^28)`, so rounding at that scale keeps exactly 28
significant digits.  Addition, subtraction and multiplication at the
magnitudes the simulator handles stay within 28 digits and are exact
(they are embedded as exact rational arithmetic); division generally
does not, so it is the one operation whose result must be passed
through this rounding. -/
def decimalRound28 (x : ℚ) : ℚ :=
  if x = 0 then 0
  else
    (roundHalfEven (x / 10 ^ (Int.log 10 |x| - 27)) : ℚ) *
      10 ^ (Int.log 10 |x| - 27)

/-! ### Data model

`firebot.core.models` is not part of the provided sources; its value
records are plain dataclasses/enums whose shape is fixed by the spec's
data-model section and by every construction site in the execution
code. -/

inductive OrderSide
  | BUY
  | SELL
deriving DecidableEq

inductive OrderType
  | MARKET
  | LIMIT
  | STOP_LOSS
  | TAKE_PROFIT
deriving DecidableEq

inductive SignalDirection
  | LONG
  | SHORT
  | NEUTRAL
deriving DecidableEq

structure Position where
  symbol : String
  quantity : ℚ
  entry_price : ℚ
  current_price : ℚ
  realized_pnl : ℚ := 0
  strategy_id : String
deriving DecidableEq

/-- Modelled from the spec: `firebot.core.models.Position.unrealized_pnl`
(the source file is not provided); the spec defines a portfolio's
unrealized PnL as the sum over positions of
`(current_price − entry_price) * quantity`. -/
def Position.unrealized_pnl (p : Position) : ℚ :=
  (p.current_price - p.entry_price) * p.quantity

/-- `firebot.execution.portfolio.Trade` -/
structure Trade where
  symbol : String
  side : OrderSide
  quantity : ℚ
  entry_price : ℚ
  exit_price : Option ℚ := none
  pnl : ℚ := 0
  is_closed : Bool := false
deriving DecidableEq

structure Order where
  id : String
  symbol : String
  side : OrderSide
  order_type : OrderType
  quantity : ℚ
  price : Option ℚ := none
  strategy_id : String
deriving DecidableEq

/-- `firebot.execution.engine.FillResult` -/
structure FillResult where
  order_id : String
  status : String
  fill_price : Option ℚ
  fill_quantity : Option ℚ
  message : String := ""
deriving DecidableEq

/-! ### PortfolioSimulator (`firebot/execution/portfolio.py`) -/

structure PortfolioSimulator where
  strategy_id : String
  initial_capital : ℚ
  cash : ℚ
  positions : List (String × Position)
  high_water_mark : ℚ
  realized_pnl : ℚ
  max_drawdown_pct : ℚ
  max_position_size_pct : ℚ
  trade_history : List Trade
  current_prices : List (String × ℚ)
deriving DecidableEq

namespace PortfolioSimulator

def init (strategy_id : String) (initial_capital : ℚ)
    (max_drawdown_pct : ℚ := 1/10) (max_position_size_pct : ℚ := 1/20) :
    PortfolioSimulator :=
  { strategy_id := strategy_id
    initial_capital := initial_capital
    cash := initial_capital
    positions := []
    high_water_mark := initial_capital
    realized_pnl := 0
    max_drawdown_pct := max_drawdown_pct
    max_position_size_pct := max_position_size_pct
    trade_history := []
    current_prices := [] }

/-- `_get_position_value` -/
def get_position_value (p : PortfolioSimulator) (symbol : String)
    (pos : Position) : ℚ :=
  (lookupA p.current_prices symbol).getD pos.current_price * pos.quantity

def total_value (p : PortfolioSimulator) : ℚ :=
  p.cash + sumA p.positions (fun s pos => p.get_position_value s pos)

def drawdown (p : PortfolioSimulator) : ℚ :=
  if p.high_water_mark = 0 then 0
  else quant4 ((p.high_water_mark - p.total_value) / p.high_water_mark)

def unrealized_pnl (p : PortfolioSimulator) : ℚ :=
  (p.positions.map (fun q => q.2.unrealized_pnl)).sum

/-- `_open_or_add_position`.  The averaging division raises
`DivisionByZero` in `Decimal` when the combined quantity is zero, hence
the explicit error branch. -/
def open_or_add_position (p : PortfolioSimulator) (symbol : String)
    (quantity price : ℚ) : Except String PortfolioSimulator :=
  let cash' := p.cash - quantity * price
  let prices' := upsertA p.current_prices symbol price
  let trade : Trade :=
    { symbol := symbol, side := OrderSide.BUY, quantity := quantity
      entry_price := price }
  match lookupA p.positions symbol with
  | some existing =>
      let total_qty := existing.quantity + quantity
      if total_qty = 0 then Except.error "division by zero"
      else
        let avg_price :=
          (existing.entry_price * existing.quantity + price * quantity) /
            total_qty
        Except.ok
          { p with
            cash := cash'
            current_prices := prices'
            positions := upsertA p.positions symbol
              { symbol := symbol, quantity := total_qty
                entry_price := avg_price, current_price := price
                realized_pnl := existing.realized_pnl
                strategy_id := p.strategy_id }
            trade_history := p.trade_history ++ [trade] }
  | none =>
      Except.ok
        { p with
          cash := cash'
          current_prices := prices'
          positions := upsertA p.positions symbol
            { symbol := symbol, quantity := quantity, entry_price := price
              current_price := price, realized_pnl := 0
              strategy_id := p.strategy_id }
          trade_history := p.trade_history ++ [trade] }

/-- `_close_or_reduce_position`; both `raise` statements precede every
mutation. -/
def close_or_reduce_position (p : PortfolioSimulator) (symbol : String)
    (quantity price : ℚ) : Except String PortfolioSimulator :=
  match lookupA p.positions symbol with
  | none => Except.error "No position to sell"
  | some position =>
      if position.quantity < quantity then
        Except.error "Cannot sell more than held"
      else
        let pnl := (price - position.entry_price) * quantity
        let remaining := position.quantity - quantity
        let trade : Trade :=
          { symbol := symbol, side := OrderSide.SELL, quantity := quantity
            entry_price := position.entry_price, exit_price := some price
            pnl := pnl, is_closed := true }
        Except.ok
          { p with
            realized_pnl := p.realized_pnl + pnl
            cash := p.cash + quantity * price
            current_prices := upsertA p.current_prices symbol price
            positions :=
              if remaining = 0 then eraseA p.positions symbol
              else upsertA p.positions symbol
                { symbol := symbol, quantity := remaining
                  entry_price := position.entry_price
                  current_price := price
                  realized_pnl := position.realized_pnl + pnl
                  strategy_id := p.strategy_id }
            trade_history := p.trade_history ++ [trade] }

def execute_fill (p : PortfolioSimulator) (symbol : String)
    (side : OrderSide) (quantity price : ℚ) :
    Except String PortfolioSimulator :=
  match side with
  | OrderSide.BUY => p.open_or_add_position symbol quantity price
  | OrderSide.SELL => p.close_or_reduce_position symbol quantity price

/-- `_open_or_add_position` with the entry-price average taken the way
the source's `Decimal` division actually behaves: the quotient
`((existing.entry_price * existing.quantity) + (price * quantity)) /
total_qty` (portfolio.py lines 132–134) is a `Decimal` division, so its
result carries at most the default context's 28 significant digits.
`open_or_add_position` above embeds the same statement with the
idealized exact quotient — the formula the averaging step is specified
to compute; this variant differs from it only in passing that quotient
through `decimalRound28`, and is the definition the run-level
accounting analysis is carried out over, because there the rounding is
observable. -/
def open_or_add_positionD (p : PortfolioSimulator) (symbol : String)
    (quantity price : ℚ) : Except String PortfolioSimulator :=
  let cash' := p.cash - quantity * price
  let prices' := upsertA p.current_prices symbol price
  let trade : Trade :=
    { symbol := symbol, side := OrderSide.BUY, quantity := quantity
      entry_price := price }
  match lookupA p.positions symbol with
  | some existing =>
      let total_qty := existing.quantity + quantity
      if total_qty = 0 then Except.error "division by zero"
      else
        let avg_price := decimalRound28
          ((existing.entry_price * existing.quantity + price * quantity) /
            total_qty)
        Except.ok
          { p with
            cash := cash'
            current_prices := prices'
            positions := upsertA p.positions symbol
              { symbol := symbol, quantity := total_qty
                entry_price := avg_price, current_price := price
                realized_pnl := existing.realized_pnl
                strategy_id := p.strategy_id }
            trade_history := p.trade_history ++ [trade] }
  | none =>
      Except.ok
        { p with
          cash := cash'
          current_prices := prices'
          positions := upsertA p.positions symbol
            { symbol := symbol, quantity := quantity, entry_price := price
              current_price := price, realized_pnl := 0
              strategy_id := p.strategy_id }
          trade_history := p.trade_history ++ [trade] }

/-- `execute_fill` with the `Decimal`-faithful BUY averaging; the SELL
path performs no division and is the untouched
`close_or_reduce_position`. -/
def execute_fillD (p : PortfolioSimulator) (symbol : String)
    (side : OrderSide) (quantity price : ℚ) :
    Except String PortfolioSimulator :=
  match side with
  | OrderSide.BUY => p.open_or_add_positionD symbol quantity price
  | OrderSide.SELL => p.close_or_reduce_position symbol quantity price

def update_price (p : PortfolioSimulator) (symbol : String) (price : ℚ) :
    PortfolioSimulator :=
  let prices' := upsertA p.current_prices symbol price
  match lookupA p.positions symbol with
  | some pos =>
      { p with
        current_prices := prices'
        positions :=
          upsertA p.positions symbol { pos with current_price := price } }
  | none => { p with current_prices := prices' }

def update_high_water_mark (p : PortfolioSimulator) : PortfolioSimulator :=
  if p.high_water_mark < p.total_value then
    { p with high_water_mark := p.total_value }
  else p

def is_drawdown_breached (p : PortfolioSimulator) : Bool :=
  p.max_drawdown_pct < p.drawdown

/-- `calculate_max_position_size`; the source divides by `price`
(`Decimal` raises on a zero divisor, so the function is meaningful only
for nonzero prices) and then calls `quantize(Decimal("1"))`. -/
def calculate_max_position_size (p : PortfolioSimulator) (symbol : String)
    (price : ℚ) : ℚ :=
  quant1 (p.total_value * p.max_position_size_pct / price)

def get_position (p : PortfolioSimulator) (symbol : String) :
    Option Position :=
  lookupA p.positions symbol

end PortfolioSimulator

/-! ### PaperTradingEngine (`firebot/execution/engine.py`) -/

structure PaperTradingEngine where
  fill_model : String
  slippage_bps : ℚ
  commission_per_trade : ℚ
  order_history : List (Order × FillResult)
  pending_orders : List Order
deriving DecidableEq

namespace PaperTradingEngine

def init (fill_model : String := "instant") (slippage_bps : ℚ := 0)
    (commission_per_trade : ℚ := 0) : PaperTradingEngine :=
  { fill_model := fill_model
    slippage_bps := slippage_bps
    commission_per_trade := commission_per_trade
    order_history := []
    pending_orders := [] }

/-- `_is_conditional_triggered` -/
def is_conditional_triggered (order : Order) (current_price : ℚ) : Bool :=
  match order.price with
  | none => false
  | some stop_price =>
      if order.order_type = OrderType.STOP_LOSS then
        if order.side = OrderSide.SELL then
          decide (current_price ≤ stop_price)
        else
          decide (stop_price ≤ current_price)
      else if order.order_type = OrderType.TAKE_PROFIT then
        if order.side = OrderSide.SELL then
          decide (stop_price ≤ current_price)
        else
          decide (current_price ≤ stop_price)
      else false

/-- The `FillResult` built by `_instant_fill` (a pure function of the
slippage setting, the order and the price). -/
def fill_result_of (slippage_bps : ℚ) (order : Order)
    (current_price : ℚ) : FillResult :=
  let slippage_multiplier := slippage_bps / 10000
  let raw :=
    if order.side = OrderSide.BUY then
      current_price * (1 + slippage_multiplier)
    else
      current_price * (1 - slippage_multiplier)
  { order_id := order.id
    status := "filled"
    fill_price := some (quant2 raw)
    fill_quantity := some order.quantity
    message := "" }

/-- `_instant_fill` (also appends to `order_history`). -/
def instant_fill (e : PaperTradingEngine) (order : Order)
    (current_price : ℚ) : PaperTradingEngine × FillResult :=
  let result := fill_result_of e.slippage_bps order current_price
  ({ e with order_history := e.order_history ++ [(order, result)] }, result)

/-- `_handle_conditional_order` -/
def handle_conditional_order (e : PaperTradingEngine) (order : Order)
    (current_price : ℚ) : PaperTradingEngine × FillResult :=
  if is_conditional_triggered order current_price then
    e.instant_fill order current_price
  else
    ({ e with pending_orders := e.pending_orders ++ [order] },
     { order_id := order.id
       status := "pending"
       fill_price := none
       fill_quantity := none
       message := "Conditional order pending" })

def submit_order (e : PaperTradingEngine) (order : Order)
    (current_price : ℚ) :
    Except String (PaperTradingEngine × FillResult) :=
  if order.order_type = OrderType.STOP_LOSS ∨
      order.order_type = OrderType.TAKE_PROFIT then
    Except.ok (e.handle_conditional_order order current_price)
  else if e.fill_model = "instant" then
    Except.ok (e.instant_fill order current_price)
  else
    Except.error "Unknown fill model"

/-- The loop body of `check_pending_orders`: walks the pending list in
order, filling triggered orders (which extends `order_history`) and
collecting the rest. -/
def check_go (e : PaperTradingEngine) (orders : List Order)
    (prices : List (String × ℚ)) :
    PaperTradingEngine × List FillResult × List Order :=
  match orders with
  | [] => (e, [], [])
  | o :: rest =>
      match lookupA prices o.symbol with
      | none =>
          let (e', ts, ss) := check_go e rest prices
          (e', ts, o :: ss)
      | some price =>
          if is_conditional_triggered o price then
            let (e1, r) := e.instant_fill o price
            let (e', ts, ss) := check_go e1 rest prices
            (e', r :: ts, ss)
          else
            let (e', ts, ss) := check_go e rest prices
            (e', ts, o :: ss)

def check_pending_orders (e : PaperTradingEngine)
    (prices : List (String × ℚ)) :
    PaperTradingEngine × List FillResult :=
  let (e', triggered, still) := check_go e e.pending_orders prices
  ({ e' with pending_orders := still }, triggered)

end PaperTradingEngine

/-! ### Association-list lemmas -/

section AListLemmas

variable {α : Type}

theorem lookupA_upsertA_self (m : List (String × α)) (k : String) (v : α) :
    lookupA (upsertA m k v) k = some v := by
  induction m with
  | nil => simp [upsertA, lookupA]
  | cons hd tl ih =>
      obtain ⟨k', v'⟩ := hd
      by_cases h : k' = k
      · simp [upsertA, h, lookupA]
      · simp [upsertA, h, lookupA, ih]

theorem lookupA_upsertA_ne (m : List (String × α)) (k k' : String) (v : α)
    (h : k ≠ k') : lookupA (upsertA m k v) k' = lookupA m k' := by
  induction m with
  | nil => simp [upsertA, lookupA, h]
  | cons hd tl ih =>
      obtain ⟨k'', v''⟩ := hd
      by_cases hk : k'' = k
      · subst hk
        simp [upsertA, lookupA, h]
      · by_cases hk' : k'' = k'
        · simp [upsertA, lookupA, hk, hk', Ne.symm h]
        · simp [upsertA, lookupA, hk, hk', ih]

theorem lookupA_eraseA_ne (m : List (String × α)) (k k' : String)
    (h : k ≠ k') : lookupA (eraseA m k) k' = lookupA m k' := by
  induction m with
  | nil => simp [eraseA]
  | cons hd tl ih =>
      obtain ⟨k'', v''⟩ := hd
      by_cases hk : k'' = k
      · subst hk
        simp [eraseA, lookupA, h]
      · simp [eraseA, lookupA, hk, ih]

theorem lookupA_eq_none_iff (m : List (String × α)) (k : String) :
    lookupA m k = none ↔ k ∉ keysA m := by
  induction m with
  | nil => simp [lookupA, keysA]
  | cons hd tl ih =>
      obtain ⟨k', v'⟩ := hd
      by_cases h : k' = k
      · simp [lookupA, keysA, h]
      · simp [lookupA, keysA, h, ih, Ne.symm h]

theorem mem_keysA_of_mem {m : List (String × α)} {k : String} {v : α}
    (h : (k, v) ∈ m) : k ∈ keysA m := by
  simp only [keysA, List.mem_map]
  exact ⟨(k, v), h, rfl⟩

theorem lookupA_eraseA_self (m : List (String × α)) (k : String)
    (h : (keysA m).Nodup) : lookupA (eraseA m k) k = none := by
  induction m with
  | nil => simp [eraseA, lookupA]
  | cons hd tl ih =>
      obtain ⟨k', v'⟩ := hd
      simp only [keysA, List.map_cons, List.nodup_cons] at h
      by_cases hk : k' = k
      · subst hk
        simp only [eraseA, if_pos rfl]
        rw [lookupA_eq_none_iff]
        exact h.1
      · simp only [eraseA, if_neg hk, lookupA, if_neg hk]
        exact ih h.2

theorem lookupA_eq_of_mem_nodup {m : List (String × α)} {k : String}
    {v : α} (h : (keysA m).Nodup) (hm : (k, v) ∈ m) :
    lookupA m k = some v := by
  induction m with
  | nil => simp at hm
  | cons hd tl ih =>
      obtain ⟨k', v'⟩ := hd
      simp only [keysA, List.map_cons, List.nodup_cons] at h
      rcases List.mem_cons.mp hm with heq | htl
      · rw [Prod.ext_iff] at heq
        obtain ⟨hk, hv⟩ := heq
        simp only at hk hv
        simp [lookupA, hk.symm, hv]
      · have hk : k' ≠ k := by
          intro he
          exact h.1 (he ▸ mem_keysA_of_mem htl)
        simp only [lookupA, if_neg hk]
        exact ih h.2 htl

theorem keysA_upsertA_some (m : List (String × α)) (k : String) (v w : α)
    (h : lookupA m k = some w) : keysA (upsertA m k v) = keysA m := by
  induction m with
  | nil => simp [lookupA] at h
  | cons hd tl ih =>
      obtain ⟨k', v'⟩ := hd
      by_cases hk : k' = k
      · simp [upsertA, hk, keysA]
      · simp only [lookupA, if_neg hk] at h
        have := ih h
        simp only [keysA] at this
        simp only [upsertA, if_neg hk, keysA, List.map_cons, this]

theorem keysA_upsertA_none (m : List (String × α)) (k : String) (v : α)
    (h : lookupA m k = none) : keysA (upsertA m k v) = keysA m ++ [k] := by
  induction m with
  | nil => simp [upsertA, keysA]
  | cons hd tl ih =>
      obtain ⟨k', v'⟩ := hd
      by_cases hk : k' = k
      · simp [lookupA, hk] at h
      · simp only [lookupA, if_neg hk] at h
        have := ih h
        simp only [keysA] at this
        simp only [upsertA, if_neg hk, keysA, List.map_cons, this,
          List.cons_append]

theorem nodup_keysA_upsertA (m : List (String × α)) (k : String) (v : α)
    (h : (keysA m).Nodup) : (keysA (upsertA m k v)).Nodup := by
  cases hl : lookupA m k with
  | some w => rw [keysA_upsertA_some m k v w hl]; exact h
  | none =>
      rw [keysA_upsertA_none m k v hl]
      have hk : k ∉ keysA m := (lookupA_eq_none_iff m k).mp hl
      simp [List.nodup_append, h, hk]

theorem keysA_eraseA_sublist (m : List (String × α)) (k : String) :
    (keysA (eraseA m k)).Sublist (keysA m) := by
  induction m with
  | nil => simp [eraseA]
  | cons hd tl ih =>
      obtain ⟨k', v'⟩ := hd
      by_cases hk : k' = k
      · simp only [eraseA, if_pos hk, keysA, List.map_cons]
        exact List.sublist_cons_self _ _
      · simp only [eraseA, if_neg hk, keysA, List.map_cons]
        exact List.Sublist.cons₂ _ ih

theorem nodup_keysA_eraseA (m : List (String × α)) (k : String)
    (h : (keysA m).Nodup) : (keysA (eraseA m k)).Nodup :=
  (keysA_eraseA_sublist m k).nodup h

theorem sumA_upsertA_some (m : List (String × α)) (k : String) (v w : α)
    (f : String → α → ℚ) (h : lookupA m k = some w) :
    sumA (upsertA m k v) f = sumA m f - f k w + f k v := by
  induction m with
  | nil => simp [lookupA] at h
  | cons hd tl ih =>
      obtain ⟨k', v'⟩ := hd
      by_cases hk : k' = k
      · subst hk
        simp only [lookupA, eq_self_iff_true, if_true, Option.some.injEq] at h
        subst h
        simp only [upsertA, eq_self_iff_true, if_true, sumA, List.map_cons, List.sum_cons]
        ring
      · simp only [lookupA, if_neg hk] at h
        simp only [upsertA, if_neg hk, sumA, List.map_cons, List.sum_cons]
        have := ih h
        simp only [sumA] at this
        rw [this]
        ring

theorem sumA_upsertA_none (m : List (String × α)) (k : String) (v : α)
    (f : String → α → ℚ) (h : lookupA m k = none) :
    sumA (upsertA m k v) f = sumA m f + f k v := by
  induction m with
  | nil => simp [upsertA, sumA]
  | cons hd tl ih =>
      obtain ⟨k', v'⟩ := hd
      by_cases hk : k' = k
      · simp [lookupA, hk] at h
      · simp only [lookupA, if_neg hk] at h
        simp only [upsertA, if_neg hk, sumA, List.map_cons, List.sum_cons]
        have := ih h
        simp only [sumA] at this
        rw [this]
        ring

theorem sumA_eraseA_some (m : List (String × α)) (k : String) (w : α)
    (f : String → α → ℚ) (h : lookupA m k = some w) :
    sumA (eraseA m k) f = sumA m f - f k w := by
  induction m with
  | nil => simp [lookupA] at h
  | cons hd tl ih =>
      obtain ⟨k', v'⟩ := hd
      by_cases hk : k' = k
      · subst hk
        simp only [lookupA, eq_self_iff_true, if_true, Option.some.injEq] at h
        subst h
        simp only [eraseA, eq_self_iff_true, if_true, sumA, List.map_cons, List.sum_cons]
        ring
      · simp only [lookupA, if_neg hk] at h
        simp only [eraseA, if_neg hk, sumA, List.map_cons, List.sum_cons]
        have := ih h
        simp only [sumA] at this
        rw [this]
        ring

theorem sumA_congr (m : List (String × α)) (f g : String → α → ℚ)
    (h : ∀ kv ∈ m, f kv.1 kv.2 = g kv.1 kv.2) : sumA m f = sumA m g := by
  unfold sumA
  rw [List.map_congr_left (fun kv hkv => h kv hkv)]

theorem sumA_sub (m : List (String × α)) (f g : String → α → ℚ) :
    sumA m f - sumA m g = sumA m (fun s a => f s a - g s a) := by
  induction m with
  | nil => simp [sumA]
  | cons hd tl ih =>
      simp only [sumA, List.map_cons, List.sum_cons] at ih ⊢
      rw [← ih]
      ring

end AListLemmas

/-! ### Rounding lemmas -/

theorem roundHalfEven_neg {x : ℚ} (hx : x < -(1/2)) : roundHalfEven x < 0 := by
  have hfl : (⌊x⌋ : ℚ) ≤ x := Int.floor_le x
  have h2 : ⌊x⌋ < 0 := by
    have h2q : (⌊x⌋ : ℚ) < 0 := by linarith
    exact_mod_cast h2q
  unfold roundHalfEven
  split_ifs with hr1 hr2 hp
  · exact h2
  · push_neg at hr1
    have hq : (⌊x⌋ : ℚ) < -1 := by linarith
    have hz : ⌊x⌋ < -1 := by exact_mod_cast hq
    omega
  · exact h2
  · push_neg at hr1 hr2
    have heq : x - (⌊x⌋ : ℚ) = 1/2 := le_antisymm hr2 hr1
    have hq : (⌊x⌋ : ℚ) < -1 := by linarith
    have hz : ⌊x⌋ < -1 := by exact_mod_cast hq
    omega

theorem roundHalfEven_eq_of_down {x : ℚ} {n : ℤ} (hfl : ⌊x⌋ = n)
    (h : x - n < 1/2) : roundHalfEven x = n := by
  unfold roundHalfEven
  rw [hfl, if_pos h]

theorem roundHalfEven_eq_of_up {x : ℚ} {n : ℤ} (hfl : ⌊x⌋ = n)
    (h : 1/2 < x - n) : roundHalfEven x = n + 1 := by
  unfold roundHalfEven
  rw [hfl, if_neg (by linarith), if_pos h]

theorem roundHalfEven_intCast (n : ℤ) : roundHalfEven (n : ℚ) = n := by
  unfold roundHalfEven
  rw [Int.floor_intCast]
  rw [if_pos (by norm_num)]

/-- Quantizing an exact multiple of the step is the identity. -/
theorem quantAt_mul_self (step : ℚ) (n : ℤ) (h : step ≠ 0) :
    quantAt step ((n : ℚ) * step) = (n : ℚ) * step := by
  unfold quantAt
  rw [mul_div_assoc, div_self h, mul_one, roundHalfEven_intCast]

theorem quant4_neg {r : ℚ} (h : r < -(1/20000)) : quant4 r < 0 := by
  unfold quant4 quantAt
  have hdiv : r / (1/10000) = 10000 * r := by ring
  have hhalf : r / (1/10000) < -(1/2) := by rw [hdiv]; linarith
  have hlt := roundHalfEven_neg hhalf
  have hltq : ((roundHalfEven (r / (1/10000)) : ℤ) : ℚ) < 0 := by
    exact_mod_cast hlt
  have hstep : (0 : ℚ) < 1/10000 := by norm_num
  exact mul_neg_of_neg_of_pos hltq hstep

/-- Uniqueness of the base-10 order of magnitude: pinning `q` between
consecutive powers of ten determines `Int.log 10 q`. -/
theorem int_log_eq_of_bounds {q : ℚ} {e : ℤ} (hq : 0 < q)
    (h1 : (10 : ℚ) ^ e ≤ q) (h2 : q < (10 : ℚ) ^ (e + 1)) :
    Int.log 10 q = e := by
  have hc : ((10 : ℕ) : ℚ) = (10 : ℚ) := by norm_num
  have hlo : e ≤ Int.log 10 q := by
    refine (Int.zpow_le_iff_le_log (by norm_num) hq).mp ?_
    rw [hc]
    exact h1
  have hhi : Int.log 10 q < e + 1 := by
    refine (Int.lt_zpow_iff_log_lt (by norm_num) hq).mp ?_
    rw [hc]
    exact h2
  omega

/-- Evaluation rule for `decimalRound28` once the order of magnitude of
its argument is known. -/
theorem decimalRound28_eq {x : ℚ} {e : ℤ} (hx : x ≠ 0)
    (h1 : (10 : ℚ) ^ e ≤ |x|) (h2 : |x| < (10 : ℚ) ^ (e + 1)) :
    decimalRound28 x =
      (roundHalfEven (x / 10 ^ (e - 27)) : ℚ) * 10 ^ (e - 27) := by
  have hlog : Int.log 10 |x| = e :=
    int_log_eq_of_bounds (abs_pos.mpr hx) h1 h2
  unfold decimalRound28
  rw [if_neg hx, hlog]

/-- The averaging division of the counterexample run: `5/3` rounded to
28 significant digits, half-even, is `1.666666666666666666666666667`
(the digit string `Decimal` stores for `Decimal(5)/Decimal(3)`). -/
theorem decimalRound28_five_thirds :
    decimalRound28 (5 / 3 : ℚ) =
      1666666666666666666666666667 / 10 ^ 27 := by
  have h53 : (0 : ℚ) < 5 / 3 := by norm_num
  have habs : |(5 / 3 : ℚ)| = 5 / 3 := abs_of_pos h53
  rw [decimalRound28_eq (ne_of_gt h53) (e := 0)
    (by rw [habs, zpow_zero]; norm_num)
    (by rw [habs, zero_add, zpow_one]; norm_num)]
  have he : ((0 : ℤ) - 27) = -(27 : ℕ) := by norm_num
  have hpow : (10 : ℚ) ^ ((0 : ℤ) - 27) = ((10 : ℚ) ^ (27 : ℕ))⁻¹ := by
    rw [he, zpow_neg, zpow_natCast]
  have harg : (5 / 3 : ℚ) / 10 ^ ((0 : ℤ) - 27) =
      5000000000000000000000000000 / 3 := by
    rw [hpow, div_inv_eq_mul]
    norm_num
  rw [harg]
  have hfl : ⌊(5000000000000000000000000000 / 3 : ℚ)⌋ =
      1666666666666666666666666666 := by
    rw [Int.floor_eq_iff]
    constructor
    · norm_num
    · norm_num
  have hup := roundHalfEven_eq_of_up hfl (by norm_num)
  rw [hup, hpow]
  norm_num

/-! ### Specification-side trigger table (for comparison with the
source's `_is_conditional_triggered`) -/

/-- The conditional-trigger predicate exactly as the spec's table in
§4.1 states it, defined from the spec's words, to be compared with the
source-derived `PaperTradingEngine.is_conditional_triggered`. -/
def triggerSpec (ot : OrderType) (side : OrderSide) (trigger c : ℚ) :
    Prop :=
  match ot, side with
  | OrderType.STOP_LOSS, OrderSide.SELL => c ≤ trigger
  | OrderType.STOP_LOSS, OrderSide.BUY => trigger ≤ c
  | OrderType.TAKE_PROFIT, OrderSide.SELL => trigger ≤ c
  | OrderType.TAKE_PROFIT, OrderSide.BUY => c ≤ trigger
  | _, _ => False

/-! ### Characterization of `check_pending_orders` -/

/-- The (order, fill) pairs produced by one `check_pending_orders` pass:
those pending orders with a known price whose trigger condition holds. -/
def triggeredFills (s : ℚ) (orders : List Order)
    (prices : List (String × ℚ)) : List (Order × FillResult) :=
  orders.filterMap fun o =>
    match lookupA prices o.symbol with
    | none => none
    | some c =>
        if PaperTradingEngine.is_conditional_triggered o c then
          some (o, PaperTradingEngine.fill_result_of s o c)
        else none

/-- The orders a `check_pending_orders` pass keeps pending: those with
no known price or an unsatisfied trigger condition. -/
def stillPendingOf (orders : List Order) (prices : List (String × ℚ)) :
    List Order :=
  orders.filter fun o =>
    match lookupA prices o.symbol with
    | none => true
    | some c => ! PaperTradingEngine.is_conditional_triggered o c

theorem check_go_eq (prices : List (String × ℚ)) :
    ∀ (orders : List Order) (e : PaperTradingEngine),
      PaperTradingEngine.check_go e orders prices =
        ({ e with order_history :=
            e.order_history ++ triggeredFills e.slippage_bps orders prices },
         (triggeredFills e.slippage_bps orders prices).map Prod.snd,
         stillPendingOf orders prices) := by
  intro orders
  induction orders with
  | nil =>
      intro e
      simp [PaperTradingEngine.check_go, triggeredFills, stillPendingOf]
  | cons o rest ih =>
      intro e
      cases hl : lookupA prices o.symbol with
      | none =>
          simp only [PaperTradingEngine.check_go, hl, ih e]
          simp [triggeredFills, stillPendingOf, hl]
      | some price =>
          by_cases ht : PaperTradingEngine.is_conditional_triggered o price
          · simp only [PaperTradingEngine.check_go, hl, ht, if_true,
              PaperTradingEngine.instant_fill]
            rw [ih]
            simp [triggeredFills, stillPendingOf, hl, ht]
          · simp only [PaperTradingEngine.check_go, hl, ht, if_false, ih e]
            simp [triggeredFills, stillPendingOf, hl, ht]

theorem mem_triggeredFills_status {s : ℚ} {orders : List Order}
    {prices : List (String × ℚ)} {q : Order × FillResult}
    (h : q ∈ triggeredFills s orders prices) : q.2.status = "filled" := by
  unfold triggeredFills at h
  obtain ⟨o, -, heq⟩ := List.mem_filterMap.mp h
  revert heq
  cases lookupA prices o.symbol with
  | none => intro heq; simp at heq
  | some c =>
      intro heq
      by_cases ht : PaperTradingEngine.is_conditional_triggered o c
      · simp only [ht, if_true, Option.some.injEq] at heq
        subst heq
        rfl
      · simp [ht] at heq

/-! ### Sample values -/

def mktBuyOrder : Order :=
  { id := "o1", symbol := "AAPL", side := OrderSide.BUY,
    order_type := OrderType.MARKET, quantity := 5, price := none,
    strategy_id := "s" }

def mktSellOrder : Order :=
  { id := "o2", symbol := "AAPL", side := OrderSide.SELL,
    order_type := OrderType.MARKET, quantity := 5, price := none,
    strategy_id := "s" }

def slSellOrder : Order :=
  { id := "o3", symbol := "AAPL", side := OrderSide.SELL,
    order_type := OrderType.STOP_LOSS, quantity := 5, price := some 100,
    strategy_id := "s" }

def slNoPriceOrder : Order :=
  { id := "o4", symbol := "AAPL", side := OrderSide.SELL,
    order_type := OrderType.STOP_LOSS, quantity := 5, price := none,
    strategy_id := "s" }

/-- A portfolio whose total value transiently exceeds its recorded
high-water mark by one hundredth of a basis point. -/
def aboveMarkPortfolio : PortfolioSimulator :=
  { PortfolioSimulator.init "s" 100000 with cash := 100000 + 1/10000 }

/-! ### Claims -/

/-- C2: for every STOP_LOSS or TAKE_PROFIT order with a set trigger
price p and current price c, the order is filled (by `submit_order` or
by `check_pending_orders`) rather than left pending exactly when
(STOP_LOSS, SELL): c ≤ p; (STOP_LOSS, BUY): c ≥ p; (TAKE_PROFIT, SELL):
c ≥ p; (TAKE_PROFIT, BUY): c ≤ p; and a conditional order whose price
is unset never triggers and is held pending without raising an
error. -/
theorem conditional_trigger_table :
    (∀ (o : Order) (c p : ℚ), o.price = some p →
      (PaperTradingEngine.is_conditional_triggered o c = true ↔
        triggerSpec o.order_type o.side p c)) ∧
    (∀ (o : Order) (c : ℚ), o.price = none →
      PaperTradingEngine.is_conditional_triggered o c = false) ∧
    (∀ (e : PaperTradingEngine) (o : Order) (c : ℚ),
      o.order_type = OrderType.STOP_LOSS ∨
        o.order_type = OrderType.TAKE_PROFIT →
      e.submit_order o c = Except.ok (e.handle_conditional_order o c) ∧
      (PaperTradingEngine.is_conditional_triggered o c = true →
        (e.handle_conditional_order o c).2.status = "filled") ∧
      (PaperTradingEngine.is_conditional_triggered o c = false →
        (e.handle_conditional_order o c).2.status = "pending" ∧
        (e.handle_conditional_order o c).1.pending_orders =
          e.pending_orders ++ [o])) ∧
    (∀ (e : PaperTradingEngine) (prices : List (String × ℚ)),
      (e.check_pending_orders prices).1.pending_orders =
        stillPendingOf e.pending_orders prices ∧
      (e.check_pending_orders prices).2 =
        (triggeredFills e.slippage_bps e.pending_orders prices).map
          Prod.snd ∧
      ∀ r ∈ (e.check_pending_orders prices).2, r.status = "filled") := by
  refine ⟨?_, ?_, ?_, ?_⟩
  · intro o c p hp
    rcases o with ⟨oid, osym, oside, otype, oq, opr, osid⟩
    simp only at hp
    subst hp
    cases otype <;> cases oside <;>
      simp [PaperTradingEngine.is_conditional_triggered, triggerSpec]
  · intro o c hp
    rcases o with ⟨oid, osym, oside, otype, oq, opr, osid⟩
    simp only at hp
    subst hp
    rfl
  · intro e o c h
    refine ⟨?_, ?_, ?_⟩
    · unfold PaperTradingEngine.submit_order
      rw [if_pos h]
    · intro ht
      unfold PaperTradingEngine.handle_conditional_order
      rw [if_pos ht]
      rfl
    · intro ht
      unfold PaperTradingEngine.handle_conditional_order
      rw [if_neg (by simp [ht])]
      exact ⟨rfl, rfl⟩
  · intro e prices
    have h := check_go_eq prices e.pending_orders e
    unfold PaperTradingEngine.check_pending_orders
    rw [h]
    refine ⟨rfl, rfl, ?_⟩
    intro r hr
    simp only at hr
    obtain ⟨q, hq, rfl⟩ := List.mem_map.mp hr
    exact mem_triggeredFills_status hq

theorem conditional_trigger_table_witness :
    (PaperTradingEngine.is_conditional_triggered slSellOrder 95 = true ↔
      triggerSpec OrderType.STOP_LOSS OrderSide.SELL 100 95) ∧
    PaperTradingEngine.is_conditional_triggered slNoPriceOrder 95 =
      false ∧
    ((PaperTradingEngine.init "instant" 0 0).submit_order slNoPriceOrder
        95 =
      Except.ok ((PaperTradingEngine.init "instant" 0
        0).handle_conditional_order slNoPriceOrder 95)) := by
  refine ⟨conditional_trigger_table.1 slSellOrder 95 100 rfl,
    conditional_trigger_table.2.1 slNoPriceOrder 95 rfl,
    (conditional_trigger_table.2.2.1 _ slNoPriceOrder 95
      (Or.inl rfl)).1⟩

/-- C3: a MARKET order submitted at current price c under slippage s
basis points fills at c*(1 + s/10000) (BUY) or c*(1 − s/10000) (SELL),
rounded to two decimal places, with fill quantity equal to the order's
quantity; a BUY at 100.00 with 10 bps fills at exactly 100.10 and a
SELL at 99.90 (established in the witness). -/
theorem market_instant_fill_contract :
    (∀ (e : PaperTradingEngine) (o : Order) (c : ℚ),
      o.order_type = OrderType.MARKET → e.fill_model = "instant" →
      ∃ e', e.submit_order o c = Except.ok
        (e', PaperTradingEngine.fill_result_of e.slippage_bps o c)) ∧
    (∀ (s : ℚ) (o : Order) (c : ℚ),
      (PaperTradingEngine.fill_result_of s o c).status = "filled" ∧
      (PaperTradingEngine.fill_result_of s o c).fill_quantity =
        some o.quantity ∧
      (PaperTradingEngine.fill_result_of s o c).fill_price =
        some (quant2 (if o.side = OrderSide.BUY then c * (1 + s / 10000)
          else c * (1 - s / 10000)))) := by
  constructor
  · intro e o c hm hf
    refine ⟨(e.instant_fill o c).1, ?_⟩
    unfold PaperTradingEngine.submit_order
    rw [if_neg (by simp [hm]), if_pos hf]
    rfl
  · intro s o c
    refine ⟨rfl, rfl, ?_⟩
    by_cases hs : o.side = OrderSide.BUY <;>
      simp [PaperTradingEngine.fill_result_of, hs]

theorem market_instant_fill_contract_witness :
    (∃ e', (PaperTradingEngine.init "instant" 10 0).submit_order
        mktBuyOrder 100 =
      Except.ok (e', PaperTradingEngine.fill_result_of 10 mktBuyOrder
        100)) ∧
    (PaperTradingEngine.fill_result_of 10 mktBuyOrder 100).fill_price =
      some (1001/10) ∧
    (PaperTradingEngine.fill_result_of 10 mktSellOrder 100).fill_price =
      some (999/10) ∧
    (PaperTradingEngine.fill_result_of 10 mktBuyOrder 100).fill_quantity
      = some mktBuyOrder.quantity := by
  have hbuy : quant2 ((100:ℚ) * (1 + 10/10000)) = 1001/10 := by
    have he : (100:ℚ) * (1 + 10/10000) = ((10010 : ℤ) : ℚ) * (1/100) := by
      norm_num
    unfold quant2
    rw [he, quantAt_mul_self _ _ (by norm_num)]
    norm_num
  have hsell : quant2 ((100:ℚ) * (1 - 10/10000)) = 999/10 := by
    have he : (100:ℚ) * (1 - 10/10000) = ((9990 : ℤ) : ℚ) * (1/100) := by
      norm_num
    unfold quant2
    rw [he, quantAt_mul_self _ _ (by norm_num)]
    norm_num
  refine ⟨market_instant_fill_contract.1 _ _ _ rfl rfl, ?_, ?_,
    (market_instant_fill_contract.2 10 mktBuyOrder 100).2.1⟩
  · have h := (market_instant_fill_contract.2 10 mktBuyOrder 100).2.2
    rw [h, if_pos (show mktBuyOrder.side = OrderSide.BUY from rfl), hbuy]
  · have h := (market_instant_fill_contract.2 10 mktSellOrder 100).2.2
    rw [h, if_neg (show mktSellOrder.side ≠ OrderSide.BUY by decide),
      hsell]

/-- C7 (counterexample): with an unsupported fill model, submitting an
untriggered STOP_LOSS order does not raise: it is queued pending. -/
theorem bad_fill_model_counterexample :
    ∃ e' r, (PaperTradingEngine.init "bogus" 0 0).submit_order
      slSellOrder 105 = Except.ok (e', r) ∧ r.status = "pending" := by
  refine ⟨_, _, rfl, rfl⟩

/-- C7 (amended): with an unsupported fill model, `submit_order` raises
the invalid-configuration error for every non-conditional order (every
order that is not STOP_LOSS or TAKE_PROFIT); conditional orders bypass
the fill-model check. -/
theorem bad_fill_model_market_error (e : PaperTradingEngine) (o : Order)
    (c : ℚ) (hf : e.fill_model ≠ "instant")
    (h1 : o.order_type ≠ OrderType.STOP_LOSS)
    (h2 : o.order_type ≠ OrderType.TAKE_PROFIT) :
    e.submit_order o c = Except.error "Unknown fill model" := by
  unfold PaperTradingEngine.submit_order
  rw [if_neg (by simp [h1, h2]), if_neg hf]

theorem bad_fill_model_market_error_witness :
    (PaperTradingEngine.init "bogus" 0 0).submit_order mktBuyOrder 100 =
      Except.error "Unknown fill model" :=
  bad_fill_model_market_error _ _ _ (by decide) (by decide) (by decide)

/-- C8: on a fresh 100000-capital portfolio (5% position limit), the
maximum position size at price 3 comes out as 1667 — `quantize` rounds
5000/3 ≈ 1666.67 to the nearest unit — although the floor stated by the
spec (and by the source's own comment) is 1666. -/
theorem calculate_max_position_size_rounds_to_nearest :
    (PortfolioSimulator.init "s" 100000).calculate_max_position_size
        "AAPL" 3 = 1667 ∧
    ⌊(PortfolioSimulator.init "s" 100000).total_value *
        (PortfolioSimulator.init "s" 100000).max_position_size_pct /
        3⌋ = 1666 := by
  have hval : (PortfolioSimulator.init "s" 100000).total_value *
      (PortfolioSimulator.init "s" 100000).max_position_size_pct / 3 =
      5000/3 := by
    simp only [PortfolioSimulator.total_value, PortfolioSimulator.init,
      sumA, List.map_nil, List.sum_nil]
    norm_num
  have hfl : ⌊(5000:ℚ)/3⌋ = 1666 := by
    rw [Int.floor_eq_iff]
    constructor <;> norm_num
  constructor
  · unfold PortfolioSimulator.calculate_max_position_size quant1 quantAt
    rw [hval, div_one,
      roundHalfEven_eq_of_up hfl (by push_cast; norm_num)]
    norm_num
  · rw [hval]
    exact hfl

/-- C9 (counterexample): a portfolio whose total value exceeds its
high-water mark returns a drawdown of exactly zero — not a negative
value — when the exceedance is below the 4-decimal rounding
granularity. -/
theorem drawdown_not_negative_counterexample :
    aboveMarkPortfolio.high_water_mark ≠ 0 ∧
    aboveMarkPortfolio.high_water_mark <
      aboveMarkPortfolio.total_value ∧
    aboveMarkPortfolio.drawdown = 0 := by
  have hh : aboveMarkPortfolio.high_water_mark = 100000 := rfl
  have htv : aboveMarkPortfolio.total_value = 100000 + 1/10000 := by
    simp only [aboveMarkPortfolio, PortfolioSimulator.total_value,
      PortfolioSimulator.init, sumA, List.map_nil, List.sum_nil]
    norm_num
  refine ⟨by rw [hh]; norm_num, by rw [hh, htv]; norm_num, ?_⟩
  unfold PortfolioSimulator.drawdown
  rw [if_neg (by rw [hh]; norm_num), hh, htv]
  have hrat : ((100000:ℚ) - (100000 + 1/10000)) / 100000 =
      -(1/1000000000) := by norm_num
  rw [hrat]
  unfold quant4 quantAt
  have harg : (-(1/1000000000) : ℚ) / (1/10000) = -(1/100000) := by
    norm_num
  rw [harg]
  have hfl : ⌊(-(1/100000) : ℚ)⌋ = -1 := by
    rw [Int.floor_eq_iff]
    constructor <;> norm_num
  rw [roundHalfEven_eq_of_up hfl (by push_cast; norm_num)]
  norm_num

/-- C9 (amended): for nonzero high-water mark P the drawdown accessor
returns exactly (P − total_value)/P rounded half-even to 4 decimal
places, with no clamping at zero; when total_value exceeds P by more
than P/20000 (half the rounding step) the returned drawdown is strictly
negative (smaller exceedances can round to zero). -/
theorem drawdown_unclamped :
    (∀ p : PortfolioSimulator, p.high_water_mark ≠ 0 →
      p.drawdown =
        quant4 ((p.high_water_mark - p.total_value) /
          p.high_water_mark)) ∧
    (∀ p : PortfolioSimulator, 0 < p.high_water_mark →
      p.high_water_mark * (1 + 1/20000) < p.total_value →
      p.drawdown < 0) := by
  constructor
  · intro p h
    unfold PortfolioSimulator.drawdown
    rw [if_neg h]
  · intro p hpos hexc
    have hne : p.high_water_mark ≠ 0 := ne_of_gt hpos
    unfold PortfolioSimulator.drawdown
    rw [if_neg hne]
    apply quant4_neg
    rw [div_lt_iff hpos]
    linarith

/-! ### Evaluation lemmas for `execute_fill` -/

theorem execute_fill_buy_new (p : PortfolioSimulator) (sym : String)
    (q pr : ℚ) (h : lookupA p.positions sym = none) :
    p.execute_fill sym OrderSide.BUY q pr = Except.ok
      { p with
        cash := p.cash - q * pr
        current_prices := upsertA p.current_prices sym pr
        positions := upsertA p.positions sym
          { symbol := sym, quantity := q, entry_price := pr
            current_price := pr, realized_pnl := 0
            strategy_id := p.strategy_id }
        trade_history := p.trade_history ++
          [{ symbol := sym, side := OrderSide.BUY, quantity := q
             entry_price := pr }] } := by
  unfold PortfolioSimulator.execute_fill
    PortfolioSimulator.open_or_add_position
  simp only [h]

theorem execute_fill_buy_add (p : PortfolioSimulator) (sym : String)
    (q pr : ℚ) (pos : Position)
    (h : lookupA p.positions sym = some pos)
    (hz : pos.quantity + q ≠ 0) :
    p.execute_fill sym OrderSide.BUY q pr = Except.ok
      { p with
        cash := p.cash - q * pr
        current_prices := upsertA p.current_prices sym pr
        positions := upsertA p.positions sym
          { symbol := sym, quantity := pos.quantity + q
            entry_price := (pos.entry_price * pos.quantity + pr * q) /
              (pos.quantity + q)
            current_price := pr, realized_pnl := pos.realized_pnl
            strategy_id := p.strategy_id }
        trade_history := p.trade_history ++
          [{ symbol := sym, side := OrderSide.BUY, quantity := q
             entry_price := pr }] } := by
  unfold PortfolioSimulator.execute_fill
    PortfolioSimulator.open_or_add_position
  simp only [h]
  rw [if_neg hz]

theorem execute_fill_buy_zero (p : PortfolioSimulator) (sym : String)
    (q pr : ℚ) (pos : Position)
    (h : lookupA p.positions sym = some pos)
    (hz : pos.quantity + q = 0) :
    p.execute_fill sym OrderSide.BUY q pr =
      Except.error "division by zero" := by
  unfold PortfolioSimulator.execute_fill
    PortfolioSimulator.open_or_add_position
  simp only [h]
  rw [if_pos hz]

theorem execute_fill_sell_ok (p : PortfolioSimulator) (sym : String)
    (q pr : ℚ) (pos : Position)
    (h : lookupA p.positions sym = some pos)
    (hq : ¬ pos.quantity < q) :
    p.execute_fill sym OrderSide.SELL q pr = Except.ok
      { p with
        realized_pnl := p.realized_pnl + (pr - pos.entry_price) * q
        cash := p.cash + q * pr
        current_prices := upsertA p.current_prices sym pr
        positions :=
          if pos.quantity - q = 0 then eraseA p.positions sym
          else upsertA p.positions sym
            { symbol := sym, quantity := pos.quantity - q
              entry_price := pos.entry_price, current_price := pr
              realized_pnl := pos.realized_pnl +
                (pr - pos.entry_price) * q
              strategy_id := p.strategy_id }
        trade_history := p.trade_history ++
          [{ symbol := sym, side := OrderSide.SELL, quantity := q
             entry_price := pos.entry_price, exit_price := some pr
             pnl := (pr - pos.entry_price) * q, is_closed := true }] } := by
  unfold PortfolioSimulator.execute_fill
    PortfolioSimulator.close_or_reduce_position
  simp only [h]
  rw [if_neg hq]

theorem execute_fill_sell_err_none (p : PortfolioSimulator)
    (sym : String) (q pr : ℚ) (h : lookupA p.positions sym = none) :
    p.execute_fill sym OrderSide.SELL q pr =
      Except.error "No position to sell" := by
  unfold PortfolioSimulator.execute_fill
    PortfolioSimulator.close_or_reduce_position
  simp only [h]

theorem execute_fill_sell_err_over (p : PortfolioSimulator)
    (sym : String) (q pr : ℚ) (pos : Position)
    (h : lookupA p.positions sym = some pos)
    (hq : pos.quantity < q) :
    p.execute_fill sym OrderSide.SELL q pr =
      Except.error "Cannot sell more than held" := by
  unfold PortfolioSimulator.execute_fill
    PortfolioSimulator.close_or_reduce_position
  simp only [h]
  rw [if_pos hq]

/-! ### Evaluation lemmas for `execute_fillD` (the `Decimal`-faithful
BUY averaging; its SELL path is `execute_fill`'s) -/

theorem execute_fillD_buy_new (p : PortfolioSimulator) (sym : String)
    (q pr : ℚ) (h : lookupA p.positions sym = none) :
    p.execute_fillD sym OrderSide.BUY q pr = Except.ok
      { p with
        cash := p.cash - q * pr
        current_prices := upsertA p.current_prices sym pr
        positions := upsertA p.positions sym
          { symbol := sym, quantity := q, entry_price := pr
            current_price := pr, realized_pnl := 0
            strategy_id := p.strategy_id }
        trade_history := p.trade_history ++
          [{ symbol := sym, side := OrderSide.BUY, quantity := q
             entry_price := pr }] } := by
  unfold PortfolioSimulator.execute_fillD
    PortfolioSimulator.open_or_add_positionD
  simp only [h]

theorem execute_fillD_buy_add (p : PortfolioSimulator) (sym : String)
    (q pr : ℚ) (pos : Position)
    (h : lookupA p.positions sym = some pos)
    (hz : pos.quantity + q ≠ 0) :
    p.execute_fillD sym OrderSide.BUY q pr = Except.ok
      { p with
        cash := p.cash - q * pr
        current_prices := upsertA p.current_prices sym pr
        positions := upsertA p.positions sym
          { symbol := sym, quantity := pos.quantity + q
            entry_price := decimalRound28
              ((pos.entry_price * pos.quantity + pr * q) /
                (pos.quantity + q))
            current_price := pr, realized_pnl := pos.realized_pnl
            strategy_id := p.strategy_id }
        trade_history := p.trade_history ++
          [{ symbol := sym, side := OrderSide.BUY, quantity := q
             entry_price := pr }] } := by
  unfold PortfolioSimulator.execute_fillD
    PortfolioSimulator.open_or_add_positionD
  simp only [h]
  rw [if_neg hz]

theorem execute_fillD_buy_zero (p : PortfolioSimulator) (sym : String)
    (q pr : ℚ) (pos : Position)
    (h : lookupA p.positions sym = some pos)
    (hz : pos.quantity + q = 0) :
    p.execute_fillD sym OrderSide.BUY q pr =
      Except.error "division by zero" := by
  unfold PortfolioSimulator.execute_fillD
    PortfolioSimulator.open_or_add_positionD
  simp only [h]
  rw [if_pos hz]

theorem execute_fillD_sell (p : PortfolioSimulator) (sym : String)
    (q pr : ℚ) :
    p.execute_fillD sym OrderSide.SELL q pr =
      p.execute_fill sym OrderSide.SELL q pr := rfl

theorem drawdown_unclamped_witness :
    ({ PortfolioSimulator.init "s" 100000 with cash := 120000 } :
      PortfolioSimulator).drawdown < 0 :=
  drawdown_unclamped.2 _ (by norm_num [PortfolioSimulator.init])
    (by
      simp only [PortfolioSimulator.init, PortfolioSimulator.total_value,
        sumA, List.map_nil, List.sum_nil]
      norm_num)

/-- Caller-observed semantics of `execute_fill` when the raised
`ValueError` is caught: in the source both raises of
`_close_or_reduce_position` precede the first mutation, so on error the
object is exactly as before the call. -/
def execute_fill_caught (p : PortfolioSimulator) (symbol : String)
    (side : OrderSide) (quantity price : ℚ) :
    PortfolioSimulator × Bool :=
  match p.execute_fill symbol side quantity price with
  | Except.ok p' => (p', true)
  | Except.error _ => (p, false)

/-- A 100-unit AAPL position bought at 150. -/
def samplePosition : Position :=
  { symbol := "AAPL", quantity := 100, entry_price := 150
    current_price := 150, realized_pnl := 0, strategy_id := "s" }

/-- The portfolio state after `init "s" 100000` executes a BUY of 100
AAPL at 150. -/
def samplePosPortfolio : PortfolioSimulator :=
  { strategy_id := "s", initial_capital := 100000, cash := 85000,
    positions := [("AAPL", samplePosition)],
    high_water_mark := 100000, realized_pnl := 0,
    max_drawdown_pct := 1/10, max_position_size_pct := 1/20,
    trade_history :=
      [{ symbol := "AAPL", side := OrderSide.BUY, quantity := 100,
         entry_price := 150 }],
    current_prices := [("AAPL", 150)] }

/-- C4: a SELL `execute_fill` fails exactly when no position exists for
the symbol or the sell quantity exceeds the held quantity, and in those
error cases the portfolio (cash, positions, realized_pnl, trade
history) is completely unchanged. -/
theorem sell_validation_atomic (p : PortfolioSimulator) (sym : String)
    (q pr : ℚ) :
    ((execute_fill_caught p sym OrderSide.SELL q pr).2 = false ↔
      lookupA p.positions sym = none ∨
        ∃ pos, lookupA p.positions sym = some pos ∧ pos.quantity < q) ∧
    ((execute_fill_caught p sym OrderSide.SELL q pr).2 = false →
      (execute_fill_caught p sym OrderSide.SELL q pr).1 = p) := by
  cases hl : lookupA p.positions sym with
  | none =>
      have he := execute_fill_sell_err_none p sym q pr hl
      unfold execute_fill_caught
      rw [he]
      simp [hl]
  | some pos =>
      by_cases hq : pos.quantity < q
      · have he := execute_fill_sell_err_over p sym q pr pos hl hq
        unfold execute_fill_caught
        rw [he]
        simp [hl, hq]
      · have he := execute_fill_sell_ok p sym q pr pos hl hq
        unfold execute_fill_caught
        rw [he]
        simp [hl, hq]

theorem sell_validation_atomic_witness :
    (execute_fill_caught samplePosPortfolio "AAPL" OrderSide.SELL 150
      160).2 = false ∧
    (execute_fill_caught samplePosPortfolio "AAPL" OrderSide.SELL 150
      160).1 = samplePosPortfolio := by
  have h := sell_validation_atomic samplePosPortfolio "AAPL" 150 160
  have herr : (execute_fill_caught samplePosPortfolio "AAPL"
      OrderSide.SELL 150 160).2 = false :=
    (h.1).mpr (Or.inr ⟨samplePosition, rfl,
      by norm_num [samplePosition]⟩)
  exact ⟨herr, h.2 herr⟩

/-- C5: a successful BUY fill of quantity q at price p decreases cash
by exactly q*p, appends a BUY trade record, and when a position with
quantity oq and entry oe already exists the result has quantity oq+q
and entry price (oe*oq + p*q)/(oq+q). -/
theorem buy_postconditions (p : PortfolioSimulator) (sym : String)
    (q pr : ℚ) (p' : PortfolioSimulator)
    (h : p.execute_fill sym OrderSide.BUY q pr = Except.ok p') :
    p'.cash = p.cash - q * pr ∧
    p'.trade_history = p.trade_history ++
      [{ symbol := sym, side := OrderSide.BUY, quantity := q
         entry_price := pr }] ∧
    ∀ pos, lookupA p.positions sym = some pos →
      lookupA p'.positions sym = some
        { symbol := sym, quantity := pos.quantity + q
          entry_price := (pos.entry_price * pos.quantity + pr * q) /
            (pos.quantity + q)
          current_price := pr, realized_pnl := pos.realized_pnl
          strategy_id := p.strategy_id } := by
  cases hl : lookupA p.positions sym with
  | none =>
      rw [execute_fill_buy_new p sym q pr hl] at h
      injection h with h
      subst h
      refine ⟨rfl, rfl, ?_⟩
      intro pos hpos
      cases hpos
  | some pos =>
      by_cases hz : pos.quantity + q = 0
      · rw [execute_fill_buy_zero p sym q pr pos hl hz] at h
        cases h
      · rw [execute_fill_buy_add p sym q pr pos hl hz] at h
        injection h with h
        subst h
        refine ⟨rfl, rfl, ?_⟩
        intro pos' hpos'
        injection hpos' with hpp
        subst hpp
        exact lookupA_upsertA_self _ _ _

theorem buy_postconditions_witness :
    ∃ p2, samplePosPortfolio.execute_fill "AAPL" OrderSide.BUY 100 160 =
      Except.ok p2 ∧
    p2.cash = samplePosPortfolio.cash - 100 * 160 ∧
    lookupA p2.positions "AAPL" = some
      { symbol := "AAPL", quantity := 200, entry_price := 155
        current_price := 160, realized_pnl := 0, strategy_id := "s" } := by
  have hl : lookupA samplePosPortfolio.positions "AAPL" =
      some samplePosition := rfl
  have hz : samplePosition.quantity + 100 ≠ 0 := by
    norm_num [samplePosition]
  have h2 := execute_fill_buy_add samplePosPortfolio "AAPL" 100 160
    samplePosition hl hz
  have h := buy_postconditions samplePosPortfolio "AAPL" 100 160 _ h2
  refine ⟨_, h2, h.1, ?_⟩
  rw [h.2.2 samplePosition hl]
  norm_num [samplePosition, samplePosPortfolio]

/-- C6: a successful SELL fill of quantity q at price p against a
position with entry e and held quantity hq ≥ q adds exactly (p − e)*q
to realized_pnl, adds exactly q*p to cash, removes the position when
hq − q = 0, and otherwise keeps it with quantity hq − q and unchanged
entry price e. -/
theorem sell_postconditions (p : PortfolioSimulator) (sym : String)
    (q pr : ℚ) (pos : Position)
    (h : lookupA p.positions sym = some pos) (hq : q ≤ pos.quantity)
    (hnd : (keysA p.positions).Nodup) :
    ∃ p', p.execute_fill sym OrderSide.SELL q pr = Except.ok p' ∧
      p'.realized_pnl = p.realized_pnl + (pr - pos.entry_price) * q ∧
      p'.cash = p.cash + q * pr ∧
      (pos.quantity - q = 0 → lookupA p'.positions sym = none) ∧
      (pos.quantity - q ≠ 0 → lookupA p'.positions sym = some
        { symbol := sym, quantity := pos.quantity - q
          entry_price := pos.entry_price, current_price := pr
          realized_pnl := pos.realized_pnl + (pr - pos.entry_price) * q
          strategy_id := p.strategy_id }) := by
  have he := execute_fill_sell_ok p sym q pr pos h (not_lt.mpr hq)
  refine ⟨_, he, rfl, rfl, ?_, ?_⟩
  · intro hz
    simp only [if_pos hz]
    exact lookupA_eraseA_self _ _ hnd
  · intro hz
    simp only [if_neg hz]
    exact lookupA_upsertA_self _ _ _

theorem sell_postconditions_witness :
    (∃ p', samplePosPortfolio.execute_fill "AAPL" OrderSide.SELL 50 160
        = Except.ok p' ∧
      p'.realized_pnl = 500 ∧
      p'.cash = samplePosPortfolio.cash + 8000 ∧
      lookupA p'.positions "AAPL" = some
        { symbol := "AAPL", quantity := 50, entry_price := 150
          current_price := 160, realized_pnl := 500
          strategy_id := "s" }) ∧
    (∃ p', samplePosPortfolio.execute_fill "AAPL" OrderSide.SELL 100 160
        = Except.ok p' ∧
      p'.realized_pnl = 1000 ∧
      p'.cash = samplePosPortfolio.cash + 16000 ∧
      lookupA p'.positions "AAPL" = none) := by
  constructor
  · obtain ⟨p', hfill, hrlzd, hcash, hclose, hkeep⟩ :=
      sell_postconditions samplePosPortfolio "AAPL" 50 160
        samplePosition rfl (by norm_num [samplePosition]) (by decide)
    refine ⟨p', hfill, ?_, ?_, ?_⟩
    · rw [hrlzd]
      norm_num [samplePosPortfolio, samplePosition]
    · rw [hcash]
      norm_num
    · rw [hkeep (by norm_num [samplePosition])]
      norm_num [samplePosition, samplePosPortfolio]
  · obtain ⟨p', hfill, hrlzd, hcash, hclose, hkeep⟩ :=
      sell_postconditions samplePosPortfolio "AAPL" 100 160
        samplePosition rfl (by norm_num [samplePosition]) (by decide)
    refine ⟨p', hfill, ?_, ?_, ?_⟩
    · rw [hrlzd]
      norm_num [samplePosPortfolio, samplePosition]
    · rw [hcash]
      norm_num
    · exact hclose (by norm_num [samplePosition])

/-! ### C1: the accounting identity -/

/-- One portfolio operation of the kind the accounting-identity claim
quantifies over: an `execute_fill` or an `update_price`. -/
inductive PortfolioOp where
  | fill (symbol : String) (side : OrderSide) (quantity price : ℚ)
  | price_update (symbol : String) (price : ℚ)

/-- Run semantics for the accounting analysis; fills go through
`execute_fillD`, the variant whose BUY averaging carries `Decimal`'s
28-significant-digit rounding, because the identity's exactness is
sensitive to that rounding. -/
def applyOp (p : PortfolioSimulator) :
    PortfolioOp → Except String PortfolioSimulator
  | PortfolioOp.fill s side q pr => p.execute_fillD s side q pr
  | PortfolioOp.price_update s pr => Except.ok (p.update_price s pr)

def applyOps (p : PortfolioSimulator) :
    List PortfolioOp → Except String PortfolioSimulator
  | [] => Except.ok p
  | op :: rest =>
      match applyOp p op with
      | Except.ok p' => applyOps p' rest
      | Except.error e => Except.error e

/-- The one inexact `Decimal` operation a portfolio step can perform is
the entry-price averaging division of a BUY onto an existing position;
this checks that for the given step it happens to be exact at 28
significant digits (every other operation divides nothing and is
vacuously exact). -/
def exactAveragingStep (p : PortfolioSimulator) : PortfolioOp → Bool
  | PortfolioOp.fill s side q pr =>
      match side with
      | OrderSide.BUY =>
          match lookupA p.positions s with
          | some pos =>
              decide (decimalRound28
                  ((pos.entry_price * pos.quantity + pr * q) /
                    (pos.quantity + q)) =
                (pos.entry_price * pos.quantity + pr * q) /
                  (pos.quantity + q))
          | none => true
      | OrderSide.SELL => true
  | PortfolioOp.price_update _ _ => true

/-- A run in which no entry-price averaging division ever rounds: each
step's division (if any) is exact at 28 significant digits in the state
the step actually executes from.  Runs that never BUY into an existing
position satisfy this trivially. -/
def exactAveragingRun (p : PortfolioSimulator) :
    List PortfolioOp → Bool
  | [] => true
  | op :: rest =>
      exactAveragingStep p op &&
        match applyOp p op with
        | Except.ok p' => exactAveragingRun p' rest
        | Except.error _ => true

/-- Every open position's symbol has its mark price recorded in
`_current_prices`, and it agrees with the position's own
`current_price`. -/
def PricesOk (positions : List (String × Position))
    (prices : List (String × ℚ)) : Prop :=
  ∀ s pos, lookupA positions s = some pos →
    lookupA prices s = some pos.current_price

/-- Cash bookkeeping: cash always equals initial capital plus realized
PnL minus the entry-price cost basis of the open positions. -/
def EntryBook (p : PortfolioSimulator) : Prop :=
  p.cash = p.initial_capital + p.realized_pnl -
    sumA p.positions (fun _ pos => pos.entry_price * pos.quantity)

def PortfolioInv (p : PortfolioSimulator) : Prop :=
  (keysA p.positions).Nodup ∧
  PricesOk p.positions p.current_prices ∧ EntryBook p

theorem pricesOk_upsert {positions : List (String × Position)}
    {prices : List (String × ℚ)} (h : PricesOk positions prices)
    (s : String) (newpos : Position) (pr : ℚ)
    (hcur : newpos.current_price = pr) :
    PricesOk (upsertA positions s newpos) (upsertA prices s pr) := by
  intro s' pos' h'
  by_cases hs : s = s'
  · subst hs
    rw [lookupA_upsertA_self] at h'
    injection h' with h'
    subst h'
    rw [lookupA_upsertA_self, hcur]
  · rw [lookupA_upsertA_ne _ _ _ _ hs] at h'
    rw [lookupA_upsertA_ne _ _ _ _ hs]
    exact h s' pos' h'

theorem pricesOk_keep {positions : List (String × Position)}
    {prices : List (String × ℚ)} (h : PricesOk positions prices)
    (s : String) (pr : ℚ) (hnone : lookupA positions s = none) :
    PricesOk positions (upsertA prices s pr) := by
  intro s' pos' h'
  by_cases hs : s = s'
  · subst hs
    rw [hnone] at h'
    cases h'
  · rw [lookupA_upsertA_ne _ _ _ _ hs]
    exact h s' pos' h'

theorem pricesOk_erase {positions : List (String × Position)}
    {prices : List (String × ℚ)} (h : PricesOk positions prices)
    (s : String) (pr : ℚ) (hnd : (keysA positions).Nodup) :
    PricesOk (eraseA positions s) (upsertA prices s pr) := by
  intro s' pos' h'
  by_cases hs : s = s'
  · subst hs
    rw [lookupA_eraseA_self _ _ hnd] at h'
    cases h'
  · rw [lookupA_eraseA_ne _ _ _ hs] at h'
    rw [lookupA_upsertA_ne _ _ _ _ hs]
    exact h s' pos' h'

/-- The invariant gives the claimed accounting identity. -/
theorem accounting_of_inv {p : PortfolioSimulator} (h : PortfolioInv p) :
    p.total_value = p.initial_capital + p.realized_pnl +
      p.unrealized_pnl := by
  obtain ⟨hnd, hpc, heb⟩ := h
  unfold PortfolioSimulator.total_value
  have hsum : sumA p.positions (fun s pos => p.get_position_value s pos) =
      sumA p.positions
        (fun _ pos => pos.current_price * pos.quantity) := by
    apply sumA_congr
    intro kv hkv
    have hmem : (kv.1, kv.2) ∈ p.positions := by
      rw [Prod.mk.eta]
      exact hkv
    have hl := lookupA_eq_of_mem_nodup hnd hmem
    unfold PortfolioSimulator.get_position_value
    rw [hpc kv.1 kv.2 hl]
    rfl
  have hU : p.unrealized_pnl = sumA p.positions
      (fun _ pos => pos.current_price * pos.quantity -
        pos.entry_price * pos.quantity) := by
    unfold PortfolioSimulator.unrealized_pnl sumA Position.unrealized_pnl
    apply congrArg List.sum
    apply List.map_congr_left
    intro a _
    ring
  have hsub := sumA_sub p.positions
    (fun _ pos => pos.current_price * pos.quantity)
    (fun _ pos => pos.entry_price * pos.quantity)
  unfold EntryBook at heb
  rw [hsum, hU, ← hsub, heb]
  ring

theorem inv_init (sid : String) (cap mdd mps : ℚ) :
    PortfolioInv (PortfolioSimulator.init sid cap mdd mps) := by
  refine ⟨by simp [PortfolioSimulator.init, keysA], ?_, ?_⟩
  · intro s pos h
    simp [PortfolioSimulator.init, lookupA] at h
  · unfold EntryBook
    simp [PortfolioSimulator.init, sumA]

theorem inv_update_price {p : PortfolioSimulator} (h : PortfolioInv p)
    (s : String) (pr : ℚ) : PortfolioInv (p.update_price s pr) := by
  obtain ⟨hnd, hpc, heb⟩ := h
  unfold PortfolioSimulator.update_price
  cases hl : lookupA p.positions s with
  | none =>
      exact ⟨hnd, pricesOk_keep hpc s pr hl, heb⟩
  | some pos =>
      refine ⟨nodup_keysA_upsertA _ _ _ hnd,
        pricesOk_upsert hpc s _ pr rfl, ?_⟩
      unfold EntryBook
      show p.cash = p.initial_capital + p.realized_pnl -
        sumA (upsertA p.positions s { pos with current_price := pr })
          (fun _ pos => pos.entry_price * pos.quantity)
      rw [sumA_upsertA_some _ _ _ pos _ hl]
      unfold EntryBook at heb
      show p.cash = p.initial_capital + p.realized_pnl -
        (sumA p.positions (fun _ pos => pos.entry_price * pos.quantity) -
          pos.entry_price * pos.quantity +
          pos.entry_price * pos.quantity)
      linear_combination heb

/-- A fill preserves the invariant; a BUY onto an existing position
needs its averaging division to be exact, since the stored entry price
is the `Decimal`-rounded quotient. -/
theorem inv_fill {p p' : PortfolioSimulator} (s : String)
    (side : OrderSide) (q pr : ℚ) (h : PortfolioInv p)
    (hf : p.execute_fillD s side q pr = Except.ok p')
    (hexact : exactAveragingStep p (PortfolioOp.fill s side q pr) =
      true) :
    PortfolioInv p' := by
  obtain ⟨hnd, hpc, heb⟩ := h
  unfold EntryBook at heb
  cases side with
  | BUY =>
      cases hl : lookupA p.positions s with
      | none =>
          rw [execute_fillD_buy_new p s q pr hl] at hf
          injection hf with hf
          subst hf
          refine ⟨?_, pricesOk_upsert hpc s _ pr rfl, ?_⟩
          · rw [keysA_upsertA_none _ _ _ hl]
            simp [List.nodup_append, hnd, (lookupA_eq_none_iff _ _).mp hl]
          · unfold EntryBook
            show p.cash - q * pr = p.initial_capital + p.realized_pnl -
              sumA (upsertA p.positions s
                { symbol := s, quantity := q, entry_price := pr,
                  current_price := pr, realized_pnl := 0,
                  strategy_id := p.strategy_id })
                (fun _ pos => pos.entry_price * pos.quantity)
            rw [sumA_upsertA_none _ _ _ _ hl]
            show p.cash - q * pr = p.initial_capital + p.realized_pnl -
              (sumA p.positions
                (fun _ pos => pos.entry_price * pos.quantity) + pr * q)
            linear_combination heb
      | some pos =>
          by_cases hz : pos.quantity + q = 0
          · rw [execute_fillD_buy_zero p s q pr pos hl hz] at hf
            cases hf
          · rw [execute_fillD_buy_add p s q pr pos hl hz] at hf
            injection hf with hf
            subst hf
            simp only [exactAveragingStep, hl, decide_eq_true_eq]
              at hexact
            refine ⟨nodup_keysA_upsertA _ _ _ hnd,
              pricesOk_upsert hpc s _ pr rfl, ?_⟩
            unfold EntryBook
            show p.cash - q * pr = p.initial_capital + p.realized_pnl -
              sumA (upsertA p.positions s
                { symbol := s, quantity := pos.quantity + q,
                  entry_price := decimalRound28
                    ((pos.entry_price * pos.quantity + pr * q) /
                      (pos.quantity + q)),
                  current_price := pr, realized_pnl := pos.realized_pnl,
                  strategy_id := p.strategy_id })
                (fun _ pos => pos.entry_price * pos.quantity)
            rw [sumA_upsertA_some _ _ _ pos _ hl]
            show p.cash - q * pr = p.initial_capital + p.realized_pnl -
              (sumA p.positions
                (fun _ pos => pos.entry_price * pos.quantity) -
                pos.entry_price * pos.quantity +
                decimalRound28
                  ((pos.entry_price * pos.quantity + pr * q) /
                    (pos.quantity + q)) * (pos.quantity + q))
            rw [hexact, div_mul_cancel₀ _ hz]
            linear_combination heb
  | SELL =>
      rw [execute_fillD_sell] at hf
      cases hl : lookupA p.positions s with
      | none =>
          rw [execute_fill_sell_err_none p s q pr hl] at hf
          cases hf
      | some pos =>
          by_cases hq : pos.quantity < q
          · rw [execute_fill_sell_err_over p s q pr pos hl hq] at hf
            cases hf
          · rw [execute_fill_sell_ok p s q pr pos hl hq] at hf
            injection hf with hf
            subst hf
            by_cases hz : pos.quantity - q = 0
            · refine ⟨?_, ?_, ?_⟩
              · show (keysA (if pos.quantity - q = 0
                    then eraseA p.positions s
                    else upsertA p.positions s _)).Nodup
                rw [if_pos hz]
                exact nodup_keysA_eraseA _ _ hnd
              · show PricesOk (if pos.quantity - q = 0
                    then eraseA p.positions s
                    else upsertA p.positions s _)
                    (upsertA p.current_prices s pr)
                rw [if_pos hz]
                exact pricesOk_erase hpc s pr hnd
              · unfold EntryBook
                show p.cash + q * pr = p.initial_capital +
                  (p.realized_pnl + (pr - pos.entry_price) * q) -
                  sumA (if pos.quantity - q = 0
                    then eraseA p.positions s
                    else upsertA p.positions s _)
                    (fun _ pos => pos.entry_price * pos.quantity)
                rw [if_pos hz, sumA_eraseA_some _ _ pos _ hl]
                have hqq : pos.quantity = q := sub_eq_zero.mp hz
                linear_combination heb - pos.entry_price * hqq
            · refine ⟨?_, ?_, ?_⟩
              · show (keysA (if pos.quantity - q = 0
                    then eraseA p.positions s
                    else upsertA p.positions s _)).Nodup
                rw [if_neg hz]
                exact nodup_keysA_upsertA _ _ _ hnd
              · show PricesOk (if pos.quantity - q = 0
                    then eraseA p.positions s
                    else upsertA p.positions s _)
                    (upsertA p.current_prices s pr)
                rw [if_neg hz]
                exact pricesOk_upsert hpc s _ pr rfl
              · unfold EntryBook
                show p.cash + q * pr = p.initial_capital +
                  (p.realized_pnl + (pr - pos.entry_price) * q) -
                  sumA (if pos.quantity - q = 0
                    then eraseA p.positions s
                    else upsertA p.positions s
                      { symbol := s, quantity := pos.quantity - q,
                        entry_price := pos.entry_price,
                        current_price := pr,
                        realized_pnl := pos.realized_pnl +
                          (pr - pos.entry_price) * q,
                        strategy_id := p.strategy_id })
                    (fun _ pos => pos.entry_price * pos.quantity)
                rw [if_neg hz, sumA_upsertA_some _ _ _ pos _ hl]
                show p.cash + q * pr = p.initial_capital +
                  (p.realized_pnl + (pr - pos.entry_price) * q) -
                  (sumA p.positions
                    (fun _ pos => pos.entry_price * pos.quantity) -
                    pos.entry_price * pos.quantity +
                    pos.entry_price * (pos.quantity - q))
                linear_combination heb

theorem inv_applyOp {p p' : PortfolioSimulator} {op : PortfolioOp}
    (h : PortfolioInv p) (ha : applyOp p op = Except.ok p')
    (hex : exactAveragingStep p op = true) :
    PortfolioInv p' := by
  cases op with
  | fill s side q pr => exact inv_fill s side q pr h ha hex
  | price_update s pr =>
      unfold applyOp at ha
      injection ha with ha
      subst ha
      exact inv_update_price h s pr

theorem inv_applyOps {p p' : PortfolioSimulator} {ops : List PortfolioOp}
    (h : PortfolioInv p) (ha : applyOps p ops = Except.ok p')
    (hex : exactAveragingRun p ops = true) :
    PortfolioInv p' := by
  induction ops generalizing p with
  | nil =>
      unfold applyOps at ha
      injection ha with ha
      subst ha
      exact h
  | cons op rest ih =>
      unfold applyOps at ha
      unfold exactAveragingRun at hex
      rw [Bool.and_eq_true] at hex
      obtain ⟨hex1, hex2⟩ := hex
      cases hop : applyOp p op with
      | ok p1 =>
          rw [hop] at ha
          rw [hop] at hex2
          exact ih (inv_applyOp h hop hex1) ha hex2
      | error e =>
          rw [hop] at ha
          cases ha

theorem update_price_initial (p : PortfolioSimulator) (s : String)
    (pr : ℚ) :
    (p.update_price s pr).initial_capital = p.initial_capital := by
  unfold PortfolioSimulator.update_price
  cases lookupA p.positions s <;> rfl

theorem execute_fillD_initial {p p' : PortfolioSimulator} {s : String}
    {side : OrderSide} {q pr : ℚ}
    (h : p.execute_fillD s side q pr = Except.ok p') :
    p'.initial_capital = p.initial_capital := by
  cases side with
  | BUY =>
      cases hl : lookupA p.positions s with
      | none =>
          rw [execute_fillD_buy_new p s q pr hl] at h
          injection h with h
          subst h
          rfl
      | some pos =>
          by_cases hz : pos.quantity + q = 0
          · rw [execute_fillD_buy_zero p s q pr pos hl hz] at h
            cases h
          · rw [execute_fillD_buy_add p s q pr pos hl hz] at h
            injection h with h
            subst h
            rfl
  | SELL =>
      rw [execute_fillD_sell] at h
      cases hl : lookupA p.positions s with
      | none =>
          rw [execute_fill_sell_err_none p s q pr hl] at h
          cases h
      | some pos =>
          by_cases hq : pos.quantity < q
          · rw [execute_fill_sell_err_over p s q pr pos hl hq] at h
            cases h
          · rw [execute_fill_sell_ok p s q pr pos hl hq] at h
            injection h with h
            subst h
            rfl

theorem applyOps_initial {p p' : PortfolioSimulator}
    {ops : List PortfolioOp} (h : applyOps p ops = Except.ok p') :
    p'.initial_capital = p.initial_capital := by
  induction ops generalizing p with
  | nil =>
      unfold applyOps at h
      injection h with h
      subst h
      rfl
  | cons op rest ih =>
      unfold applyOps at h
      cases hop : applyOp p op with
      | ok p1 =>
          rw [hop] at h
          have h1 : p1.initial_capital = p.initial_capital := by
            cases op with
            | fill s side q pr => exact execute_fillD_initial hop
            | price_update s pr =>
                unfold applyOp at hop
                injection hop with hop
                subst hop
                exact update_price_initial p s pr
          rw [ih h, h1]
      | error e =>
          rw [hop] at h
          cases h

theorem applyOps_cons_ok {p p1 : PortfolioSimulator} {op : PortfolioOp}
    {rest : List PortfolioOp} (h : applyOp p op = Except.ok p1) :
    applyOps p (op :: rest) = applyOps p1 rest := by
  have e1 : applyOps p (op :: rest) =
      match applyOp p op with
      | Except.ok p' => applyOps p' rest
      | Except.error e => Except.error e := rfl
  rw [e1, h]

/-- State after BUY 1 @ 1 from a fresh portfolio with capital 5. -/
def cexPos1 : Position :=
  { symbol := "A", quantity := 1, entry_price := 1, current_price := 1
    realized_pnl := 0, strategy_id := "s" }

def cexTradeA : Trade :=
  { symbol := "A", side := OrderSide.BUY, quantity := 1
    entry_price := 1 }

def cexTradeB : Trade :=
  { symbol := "A", side := OrderSide.BUY, quantity := 2
    entry_price := 2 }

def cexP1 : PortfolioSimulator :=
  { strategy_id := "s", initial_capital := 5, cash := 4
    positions := [("A", cexPos1)], high_water_mark := 5
    realized_pnl := 0, max_drawdown_pct := 1/10
    max_position_size_pct := 1/20, trade_history := [cexTradeA]
    current_prices := [("A", 1)] }

/-- The stored entry price after the second BUY: `5/3` as `Decimal`
keeps it, `1.666666666666666666666666667`. -/
def cexEntry : ℚ := 1666666666666666666666666667 / 10 ^ 27

def cexPos2 : Position :=
  { symbol := "A", quantity := 3, entry_price := cexEntry
    current_price := 2, realized_pnl := 0, strategy_id := "s" }

/-- State after BUY 1 @ 1 and then BUY 2 @ 2: all cash is spent, the
position holds 3 units marked at 2, and the entry price carries the
rounded average. -/
def cexP2 : PortfolioSimulator :=
  { strategy_id := "s", initial_capital := 5, cash := 0
    positions := [("A", cexPos2)], high_water_mark := 5
    realized_pnl := 0, max_drawdown_pct := 1/10
    max_position_size_pct := 1/20
    trade_history := [cexTradeA, cexTradeB]
    current_prices := [("A", 2)] }

/-- C1, refuted as stated: the identity is not exact on the program,
because `_open_or_add_position`'s entry-price averaging is a `Decimal`
division and rounds to 28 significant digits.  From initial capital 5,
BUY 1 @ 1 and then BUY 2 @ 2 on one symbol store entry price
`1.666666666666666666666666667` (the rounding of `5/3`); `total_value`
is exactly 6, but initial capital + realized PnL + unrealized PnL is
`5.999999999999999999999999999`. -/
theorem accounting_identity_decimal_counterexample :
    ∃ p', applyOps (PortfolioSimulator.init "s" 5)
        [PortfolioOp.fill "A" OrderSide.BUY 1 1,
         PortfolioOp.fill "A" OrderSide.BUY 2 2] = Except.ok p' ∧
      p'.total_value = 6 ∧
      p'.initial_capital + p'.realized_pnl + p'.unrealized_pnl =
        5999999999999999999999999999 / 10 ^ 27 ∧
      p'.total_value ≠
        p'.initial_capital + p'.realized_pnl + p'.unrealized_pnl := by
  have h1 : (PortfolioSimulator.init "s" 5).execute_fillD "A"
      OrderSide.BUY 1 1 = Except.ok cexP1 := by
    rw [execute_fillD_buy_new (PortfolioSimulator.init "s" 5) "A" 1 1
      rfl]
    norm_num [cexP1, cexPos1, cexTradeA, PortfolioSimulator.init,
      upsertA]
  have hlk1 : lookupA cexP1.positions "A" = some cexPos1 := rfl
  have hnz : cexPos1.quantity + 2 ≠ 0 := by norm_num [cexPos1]
  have h2 : cexP1.execute_fillD "A" OrderSide.BUY 2 2 =
      Except.ok cexP2 := by
    rw [execute_fillD_buy_add _ _ _ _ cexPos1 hlk1 hnz]
    have hE : decimalRound28
        ((cexPos1.entry_price * cexPos1.quantity + 2 * 2) /
          (cexPos1.quantity + 2)) = cexEntry := by
      rw [show (cexPos1.entry_price * cexPos1.quantity + 2 * 2) /
          (cexPos1.quantity + 2) = (5 / 3 : ℚ) by norm_num [cexPos1]]
      exact decimalRound28_five_thirds
    rw [hE]
    norm_num [cexP1, cexP2, cexPos1, cexPos2, cexTradeA, cexTradeB,
      upsertA]
  have hrun : applyOps (PortfolioSimulator.init "s" 5)
      [PortfolioOp.fill "A" OrderSide.BUY 1 1,
       PortfolioOp.fill "A" OrderSide.BUY 2 2] = Except.ok cexP2 := by
    rw [applyOps_cons_ok (show applyOp (PortfolioSimulator.init "s" 5)
        (PortfolioOp.fill "A" OrderSide.BUY 1 1) = Except.ok cexP1
      from h1)]
    rw [applyOps_cons_ok (show applyOp cexP1
        (PortfolioOp.fill "A" OrderSide.BUY 2 2) = Except.ok cexP2
      from h2)]
    rfl
  have hTV : cexP2.total_value = 6 := by
    norm_num [cexP2, cexPos2, PortfolioSimulator.total_value,
      PortfolioSimulator.get_position_value, sumA, lookupA,
      Option.getD]
  have hRHS : cexP2.initial_capital + cexP2.realized_pnl +
      cexP2.unrealized_pnl = 5999999999999999999999999999 / 10 ^ 27 := by
    norm_num [cexP2, cexPos2, cexEntry,
      PortfolioSimulator.unrealized_pnl, Position.unrealized_pnl]
  refine ⟨cexP2, hrun, hTV, hRHS, ?_⟩
  rw [hTV, hRHS]
  norm_num

/-- C1 (amended): the identity survives exactly when no averaging
division rounds.  From a freshly constructed portfolio, after any
sequence of successful `execute_fill` and `update_price` operations in
which every entry-price averaging division is exact at the default
`Decimal` context's 28 significant digits — in particular any sequence
that never BUYs into an existing position — cash + Σ(quantity × mark
price), that is `total_value`, equals initial capital + realized PnL +
unrealized PnL, exactly.  Every intermediate state of such a run is
reachable as the end state of a prefix (whose averaging divisions are a
subset of the run's), so this covers the identity "after each
operation". -/
theorem accounting_identity_amended (sid : String) (cap mdd mps : ℚ)
    (ops : List PortfolioOp) (p' : PortfolioSimulator)
    (h : applyOps (PortfolioSimulator.init sid cap mdd mps) ops =
      Except.ok p')
    (hex : exactAveragingRun (PortfolioSimulator.init sid cap mdd mps)
      ops = true) :
    p'.total_value = cap + p'.realized_pnl + p'.unrealized_pnl ∧
    p'.initial_capital = cap := by
  have hinv := inv_applyOps (inv_init sid cap mdd mps) h hex
  have hid := accounting_of_inv hinv
  have hcap : p'.initial_capital = cap := applyOps_initial h
  rw [hcap] at hid
  exact ⟨hid, hcap⟩

theorem accounting_identity_amended_witness :
    ∃ p', applyOps (PortfolioSimulator.init "s" 100000)
        [PortfolioOp.fill "AAPL" OrderSide.BUY 100 150,
         PortfolioOp.price_update "AAPL" 160] = Except.ok p' ∧
      p'.total_value = 100000 + p'.realized_pnl + p'.unrealized_pnl := by
  obtain ⟨p1, h1⟩ : ∃ p1,
      (PortfolioSimulator.init "s" 100000).execute_fillD "AAPL"
        OrderSide.BUY 100 150 = Except.ok p1 :=
    ⟨_, execute_fillD_buy_new _ _ _ _ rfl⟩
  have ha1 : applyOp (PortfolioSimulator.init "s" 100000)
      (PortfolioOp.fill "AAPL" OrderSide.BUY 100 150) =
      Except.ok p1 := h1
  have hrun : applyOps (PortfolioSimulator.init "s" 100000)
      [PortfolioOp.fill "AAPL" OrderSide.BUY 100 150,
       PortfolioOp.price_update "AAPL" 160] =
      Except.ok (p1.update_price "AAPL" 160) := by
    rw [applyOps_cons_ok ha1]
    exact (applyOps_cons_ok
      (show applyOp p1 (PortfolioOp.price_update "AAPL" 160) =
        Except.ok (p1.update_price "AAPL" 160) from rfl)).trans rfl
  have hex : exactAveragingRun (PortfolioSimulator.init "s" 100000)
      [PortfolioOp.fill "AAPL" OrderSide.BUY 100 150,
       PortfolioOp.price_update "AAPL" 160] = true := rfl
  exact ⟨_, hrun,
    (accounting_identity_amended "s" 100000 (1/10) (1/20) _ _ hrun
      hex).1⟩

/-! ### Backtest driver (`firebot/backtesting/engine.py`) and forward
runner (`firebot/backtesting/forward.py`)

The strategy is the spec's external collaborator
`{on_data(bar), generate_signal(features) -> Signal|None}`: it is
embedded as an abstract state machine (state type `σ`, a transition per
hook; `generate_signal` is allowed to update the state too).  The
driver reads only `signal.direction`.  The float `sharpe_ratio` and
`max_drawdown` entries of the metrics dict are pure functions of the
equity curve computed with `math.sqrt` and are outside the rational
embedding; every other output of `run` is embedded. -/

/-- OHLCV bar; `open` is a Lean keyword, so the field is `open_`.
(`timestamp` and `resolution` are unused by the driver loop.) -/
structure OHLCV where
  symbol : String
  open_ : ℚ
  high : ℚ
  low : ℚ
  close : ℚ
  volume : ℚ
deriving DecidableEq

/-- The feature dict `_extract_features` builds (float conversions of
exact decimal bar values are modelled as the identity; the features are
only passed on to the abstract strategy). -/
structure FeatureRow where
  open_ : ℚ
  high : ℚ
  low : ℚ
  close : ℚ
  volume : ℚ
  returns : ℚ
deriving DecidableEq

/-- The only field of a `Signal` the driver loop reads is
`direction`. -/
structure Signal where
  direction : SignalDirection
deriving DecidableEq

/-- `BacktestConfig` (`slippage_bps` is an `int` in the source; a
rational subsumes it). -/
structure BacktestConfig where
  initial_capital : ℚ
  symbol : String
  commission_per_trade : ℚ := 0
  slippage_bps : ℚ := 0
  position_size_pct : ℚ := 1/10
deriving DecidableEq

/-- `TradeLogEntry`; the source stores `side.value` (the enum's string
image, defined in the absent `models.py`), the enum itself is stored
here; `timestamp` is wall-clock-free in the driver (`bar.timestamp`)
but unused by any claim and omitted. -/
structure TradeLogEntry where
  symbol : String
  side : OrderSide
  quantity : ℚ
  price : ℚ
  commission : ℚ
deriving DecidableEq

/-- Python `int()` truncation toward zero. -/
def truncQ (x : ℚ) : ℤ :=
  if 0 ≤ x then ⌊x⌋ else ⌈x⌉

/-- `BacktestEngine._calculate_quantity` -/
def calculate_quantity (cash price position_size_pct : ℚ) : ℚ :=
  if price ≤ 0 then 0
  else (truncQ (cash * position_size_pct / price) : ℚ)

/-- `BacktestEngine._find_order_side` (also used verbatim by the
forward runner). -/
def find_order_side (e : PaperTradingEngine) (order_id : String) :
    Option OrderSide :=
  match e.order_history.find? (fun q => decide (q.1.id = order_id)) with
  | some q => some q.1.side
  | none => none

/-- `BacktestEngine._extract_features` -/
def extract_features (bar : OHLCV) : FeatureRow :=
  { open_ := bar.open_, high := bar.high, low := bar.low,
    close := bar.close, volume := bar.volume, returns := 0 }

/-- The driver loop's mutable state during `BacktestEngine.run`. -/
structure BTState (σ : Type) where
  strat : σ
  engine : PaperTradingEngine
  portfolio : PortfolioSimulator
  equity : List ℚ
  trade_log : List TradeLogEntry
  total_trades : ℕ
  order_counter : ℕ

/-- Step 6 of the per-bar loop: append the equity snapshot. -/
def pushEquity {σ : Type} (st : BTState σ) : BTState σ :=
  { st with equity := st.equity ++ [st.portfolio.total_value] }

/-- The body of the `for fill_result in pending_fills` loop of `run`
for a single fill result. -/
def apply_pending_fill {σ : Type} (cfg : BacktestConfig) (bar : OHLCV)
    (st : BTState σ) (fr : FillResult) : Except String (BTState σ) :=
  if fr.status = "filled" then
    match fr.fill_price with
    | none => Except.ok st
    | some fp =>
        match find_order_side st.engine fr.order_id, fr.fill_quantity with
        | some side, some fq =>
            match st.portfolio.execute_fill bar.symbol side fq fp with
            | Except.error e => Except.error e
            | Except.ok pf' => Except.ok
                { st with
                  portfolio := pf'
                  trade_log := st.trade_log ++
                    [{ symbol := bar.symbol, side := side, quantity := fq,
                       price := fp,
                       commission := cfg.commission_per_trade }]
                  total_trades := st.total_trades + 1 }
        | _, _ => Except.ok st
  else Except.ok st

def apply_pending_fills {σ : Type} (cfg : BacktestConfig) (bar : OHLCV) :
    BTState σ → List FillResult → Except String (BTState σ)
  | st, [] => Except.ok st
  | st, fr :: rest =>
      match apply_pending_fill cfg bar st fr with
      | Except.ok st' => apply_pending_fills cfg bar st' rest
      | Except.error e => Except.error e

/-- One iteration of the per-bar loop of `BacktestEngine.run`. -/
def bt_step {σ : Type} (cfg : BacktestConfig) (sid : String)
    (onData : σ → OHLCV → σ)
    (genSignal : σ → FeatureRow → Option Signal × σ)
    (st : BTState σ) (bar : OHLCV) : Except String (BTState σ) :=
  let s1 := onData st.strat bar
  let pf1 := st.portfolio.update_price bar.symbol bar.close
  let checked := st.engine.check_pending_orders [(bar.symbol, bar.close)]
  let st1 : BTState σ :=
    { st with strat := s1, portfolio := pf1, engine := checked.1 }
  match apply_pending_fills cfg bar st1 checked.2 with
  | Except.error e => Except.error e
  | Except.ok st2 =>
      let gen := genSignal st2.strat (extract_features bar)
      let st3 : BTState σ := { st2 with strat := gen.2 }
      match gen.1 with
      | none => Except.ok (pushEquity st3)
      | some sig =>
          if sig.direction = SignalDirection.NEUTRAL then
            Except.ok (pushEquity st3)
          else
            let st4 : BTState σ :=
              { st3 with order_counter := st3.order_counter + 1 }
            let side := if sig.direction = SignalDirection.LONG
              then OrderSide.BUY else OrderSide.SELL
            let quantity := calculate_quantity st4.portfolio.cash
              bar.close cfg.position_size_pct
            if 0 < quantity then
              let order : Order :=
                { id := "bt_" ++ toString st4.order_counter,
                  symbol := bar.symbol, side := side,
                  order_type := OrderType.MARKET, quantity := quantity,
                  price := some bar.close, strategy_id := sid }
              match st4.engine.submit_order order bar.close with
              | Except.error e => Except.error e
              | Except.ok (eng2, fr) =>
                  let st5 : BTState σ := { st4 with engine := eng2 }
                  if fr.status = "filled" then
                    match fr.fill_price with
                    | none => Except.ok (pushEquity st5)
                    | some fp =>
                        -- Python `fill_result.fill_quantity or quantity`:
                        -- None and Decimal("0") are both falsy.
                        let fq := match fr.fill_quantity with
                          | some v => if v = 0 then quantity else v
                          | none => quantity
                        match st5.portfolio.execute_fill bar.symbol side
                            fq fp with
                        | Except.error e => Except.error e
                        | Except.ok pf2 => Except.ok (pushEquity
                            { st5 with
                              portfolio := pf2
                              trade_log := st5.trade_log ++
                                [{ symbol := bar.symbol, side := side,
                                   quantity := fq, price := fp,
                                   commission :=
                                     cfg.commission_per_trade }]
                              total_trades := st5.total_trades + 1 })
                  else Except.ok (pushEquity st5)
            else Except.ok (pushEquity st4)

def bt_run_state {σ : Type} (cfg : BacktestConfig) (sid : String)
    (onData : σ → OHLCV → σ)
    (genSignal : σ → FeatureRow → Option Signal × σ) :
    BTState σ → List OHLCV → Except String (BTState σ)
  | st, [] => Except.ok st
  | st, bar :: rest =>
      match bt_step cfg sid onData genSignal st bar with
      | Except.ok st' => bt_run_state cfg sid onData genSignal st' rest
      | Except.error e => Except.error e

/-- The state-valued outputs of `BacktestResult` / `run`'s metrics dict
(`sharpe_ratio` and `max_drawdown` are float-valued functions of
`equity_curve` and are omitted; see the section comment). -/
structure BacktestResultE where
  initial_capital : ℚ
  final_value : ℚ
  equity_curve : List ℚ
  total_trades : ℕ
  trade_log : List TradeLogEntry
  total_commission : ℚ
  total_return : ℚ

/-- `BacktestEngine.run`: the initial state, the per-bar fold, and the
result assembly; the final portfolio is returned alongside so that its
cash/positions/PnL can be specified. -/
def bt_run {σ : Type} (cfg : BacktestConfig) (sid : String)
    (onData : σ → OHLCV → σ)
    (genSignal : σ → FeatureRow → Option Signal × σ) (s0 : σ)
    (bars : List OHLCV) :
    Except String (BacktestResultE × PortfolioSimulator) :=
  let st0 : BTState σ :=
    { strat := s0
      engine := PaperTradingEngine.init "instant" cfg.slippage_bps
        cfg.commission_per_trade
      portfolio := PortfolioSimulator.init sid cfg.initial_capital
      equity := [], trade_log := [], total_trades := 0,
      order_counter := 0 }
  match bt_run_state cfg sid onData genSignal st0 bars with
  | Except.error e => Except.error e
  | Except.ok st => Except.ok
      ({ initial_capital := cfg.initial_capital
         final_value := st.portfolio.total_value
         equity_curve := st.equity
         total_trades := st.total_trades
         trade_log := st.trade_log
         total_commission := cfg.commission_per_trade * st.total_trades
         total_return :=
           if 0 < cfg.initial_capital then
             (st.portfolio.total_value - cfg.initial_capital) /
               cfg.initial_capital
           else 0 },
       st.portfolio)

/-- `ForwardTestRunner`'s state. -/
structure ForwardRunner (σ : Type) where
  strat : σ
  strategy_id : String
  engine : PaperTradingEngine
  portfolio : PortfolioSimulator
  position_size_pct : ℚ
  bar_count : ℕ
  total_trades : ℕ
  equity : List ℚ
  paused : Bool

def ForwardRunner.mkInit {σ : Type} (sid : String) (s0 : σ)
    (initial_capital : ℚ) (position_size_pct : ℚ := 1/10)
    (slippage_bps : ℚ := 0) (commission_per_trade : ℚ := 0) :
    ForwardRunner σ :=
  { strat := s0, strategy_id := sid,
    engine := PaperTradingEngine.init "instant" slippage_bps
      commission_per_trade,
    portfolio := PortfolioSimulator.init sid initial_capital,
    position_size_pct := position_size_pct,
    bar_count := 0, total_trades := 0, equity := [], paused := false }

/-- Equity snapshot append at the end of `on_bar`. -/
def pushFwdEquity {σ : Type} (f : ForwardRunner σ) : ForwardRunner σ :=
  { f with equity := f.equity ++ [f.portfolio.total_value] }

/-- The pending-fill loop of `ForwardTestRunner.on_bar` (no trade log,
otherwise as in the backtest loop). -/
def fwd_apply_fill {σ : Type} (bar : OHLCV) (f : ForwardRunner σ)
    (fr : FillResult) : Except String (ForwardRunner σ) :=
  if fr.status = "filled" then
    match fr.fill_price with
    | none => Except.ok f
    | some fp =>
        match find_order_side f.engine fr.order_id, fr.fill_quantity with
        | some side, some fq =>
            match f.portfolio.execute_fill bar.symbol side fq fp with
            | Except.error e => Except.error e
            | Except.ok pf' => Except.ok
                { f with
                  portfolio := pf'
                  total_trades := f.total_trades + 1 }
        | _, _ => Except.ok f
  else Except.ok f

def fwd_apply_fills {σ : Type} (bar : OHLCV) :
    ForwardRunner σ → List FillResult → Except String (ForwardRunner σ)
  | f, [] => Except.ok f
  | f, fr :: rest =>
      match fwd_apply_fill bar f fr with
      | Except.ok f' => fwd_apply_fills bar f' rest
      | Except.error e => Except.error e

/-- `ForwardTestRunner.on_bar`; the returned flag is the method's
return value (False when paused). -/
def on_bar {σ : Type} (onData : σ → OHLCV → σ)
    (genSignal : σ → FeatureRow → Option Signal × σ)
    (f : ForwardRunner σ) (bar : OHLCV) :
    Except String (ForwardRunner σ × Bool) :=
  if f.paused then Except.ok (f, false)
  else
    let f1 : ForwardRunner σ :=
      { f with
        bar_count := f.bar_count + 1
        strat := onData f.strat bar
        portfolio := f.portfolio.update_price bar.symbol bar.close }
    let checked := f1.engine.check_pending_orders
      [(bar.symbol, bar.close)]
    let f2 : ForwardRunner σ := { f1 with engine := checked.1 }
    match fwd_apply_fills bar f2 checked.2 with
    | Except.error e => Except.error e
    | Except.ok f3 =>
        let gen := genSignal f3.strat (extract_features bar)
        let f4 : ForwardRunner σ := { f3 with strat := gen.2 }
        match gen.1 with
        | none => Except.ok (pushFwdEquity f4, true)
        | some sig =>
            if sig.direction = SignalDirection.NEUTRAL then
              Except.ok (pushFwdEquity f4, true)
            else
              let side := if sig.direction = SignalDirection.LONG
                then OrderSide.BUY else OrderSide.SELL
              if 0 < f4.portfolio.cash ∧ 0 < bar.close then
                let quantity : ℚ :=
                  (truncQ (f4.portfolio.cash * f4.position_size_pct /
                    bar.close) : ℚ)
                if 0 < quantity then
                  let order : Order :=
                    { id := "fwd_" ++ toString f4.bar_count,
                      symbol := bar.symbol, side := side,
                      order_type := OrderType.MARKET,
                      quantity := quantity, price := some bar.close,
                      strategy_id := f4.strategy_id }
                  match f4.engine.submit_order order bar.close with
                  | Except.error e => Except.error e
                  | Except.ok (eng2, fr) =>
                      let f5 : ForwardRunner σ := { f4 with engine := eng2 }
                      if fr.status = "filled" then
                        match fr.fill_price with
                        | none => Except.ok (pushFwdEquity f5, true)
                        | some fp =>
                            let fq := match fr.fill_quantity with
                              | some v => if v = 0 then quantity else v
                              | none => quantity
                            match f5.portfolio.execute_fill bar.symbol
                                side fq fp with
                            | Except.error e => Except.error e
                            | Except.ok pf2 => Except.ok
                                (pushFwdEquity
                                  { f5 with
                                    portfolio := pf2
                                    total_trades := f5.total_trades + 1 },
                                 true)
                      else Except.ok (pushFwdEquity f5, true)
                else Except.ok (pushFwdEquity f4, true)
              else Except.ok (pushFwdEquity f4, true)

/-- Driving a forward runner over a list of bars. -/
def fwd_run {σ : Type} (onData : σ → OHLCV → σ)
    (genSignal : σ → FeatureRow → Option Signal × σ) :
    ForwardRunner σ → List OHLCV → Except String (ForwardRunner σ)
  | f, [] => Except.ok f
  | f, bar :: rest =>
      match on_bar onData genSignal f bar with
      | Except.ok (f', _) => fwd_run onData genSignal f' rest
      | Except.error e => Except.error e

/-! ### C10: commission never affects bookkeeping

The erasure functions below replace every copy of the configured
commission by another value; proving that each operation commutes with
the erasure shows the bookkeeping outputs are independent of the
commission setting. -/

def PaperTradingEngine.with_commission (e : PaperTradingEngine)
    (c : ℚ) : PaperTradingEngine :=
  { e with commission_per_trade := c }

def TradeLogEntry.with_commission (t : TradeLogEntry) (c : ℚ) :
    TradeLogEntry :=
  { t with commission := c }

def BTState.with_commission {σ : Type} (st : BTState σ) (c : ℚ) :
    BTState σ :=
  { st with
    engine := st.engine.with_commission c
    trade_log := st.trade_log.map (fun t => t.with_commission c) }

def ForwardRunner.with_commission {σ : Type} (f : ForwardRunner σ)
    (c : ℚ) : ForwardRunner σ :=
  { f with engine := f.engine.with_commission c }

theorem with_commission_handle_conditional (e : PaperTradingEngine)
    (c : ℚ) (o : Order) (pr : ℚ) :
    (e.with_commission c).handle_conditional_order o pr =
      ((e.handle_conditional_order o pr).1.with_commission c,
       (e.handle_conditional_order o pr).2) := by
  unfold PaperTradingEngine.handle_conditional_order
  by_cases h : PaperTradingEngine.is_conditional_triggered o pr = true
  · simp only [if_pos h]
    rfl
  · simp only [if_neg h]
    rfl

theorem with_commission_submit_order (e : PaperTradingEngine) (c : ℚ)
    (o : Order) (pr : ℚ) :
    (e.with_commission c).submit_order o pr =
      Except.map (fun q => (q.1.with_commission c, q.2))
        (e.submit_order o pr) := by
  unfold PaperTradingEngine.submit_order
  by_cases h1 : o.order_type = OrderType.STOP_LOSS ∨
      o.order_type = OrderType.TAKE_PROFIT
  · simp only [if_pos h1, with_commission_handle_conditional]
    rfl
  · by_cases h2 : e.fill_model = "instant"
    · rw [if_neg h1, if_neg h1,
        if_pos (show (e.with_commission c).fill_model = "instant"
          from h2), if_pos h2]
      rfl
    · rw [if_neg h1, if_neg h1,
        if_neg (show ¬ (e.with_commission c).fill_model = "instant"
          from h2), if_neg h2]
      rfl

theorem check_go_with_commission (prices : List (String × ℚ))
    (orders : List Order) (e : PaperTradingEngine) (c : ℚ) :
    PaperTradingEngine.check_go (e.with_commission c) orders prices =
      ((PaperTradingEngine.check_go e orders prices).1.with_commission c,
       (PaperTradingEngine.check_go e orders prices).2.1,
       (PaperTradingEngine.check_go e orders prices).2.2) := by
  rw [check_go_eq, check_go_eq]
  rfl

theorem with_commission_check_pending (e : PaperTradingEngine) (c : ℚ)
    (prices : List (String × ℚ)) :
    (e.with_commission c).check_pending_orders prices =
      ((e.check_pending_orders prices).1.with_commission c,
       (e.check_pending_orders prices).2) := by
  unfold PaperTradingEngine.check_pending_orders
  rw [check_go_eq prices ((e.with_commission c).pending_orders)
      (e.with_commission c),
    check_go_eq prices e.pending_orders e]
  rfl

theorem find_order_side_with_commission (e : PaperTradingEngine)
    (c : ℚ) (oid : String) :
    find_order_side (e.with_commission c) oid = find_order_side e oid :=
  rfl

theorem with_commission_apply_pending_fill {σ : Type}
    (cfg : BacktestConfig) (c : ℚ) (bar : OHLCV) (fr : FillResult)
    (s0 : σ) (e0 : PaperTradingEngine) (p0 : PortfolioSimulator)
    (eq0 : List ℚ) (tl0 : List TradeLogEntry) (tt0 oc0 : ℕ) :
    apply_pending_fill { cfg with commission_per_trade := c } bar
      ⟨s0, e0.with_commission c, p0, eq0,
        tl0.map (fun t => t.with_commission c), tt0, oc0⟩ fr =
    Except.map (fun st' => st'.with_commission c)
      (apply_pending_fill cfg bar ⟨s0, e0, p0, eq0, tl0, tt0, oc0⟩ fr) := by
  unfold apply_pending_fill
  by_cases h1 : fr.status = "filled"
  · simp only [if_pos h1]
    cases fr.fill_price with
    | none => rfl
    | some fp =>
        simp only [find_order_side_with_commission]
        cases hfs : find_order_side e0 fr.order_id with
        | none =>
            simp only [hfs]
            cases fr.fill_quantity <;> rfl
        | some side =>
            cases fr.fill_quantity with
            | none => rfl
            | some fq =>
                cases hex : p0.execute_fill bar.symbol side fq fp with
                | error e => simp only [hex]; rfl
                | ok pf' =>
                    simp only [hex, Except.map]
                    simp [BTState.with_commission,
                      TradeLogEntry.with_commission]
  · simp only [if_neg h1]
    rfl

theorem with_commission_apply_pending_fills {σ : Type}
    (cfg : BacktestConfig) (c : ℚ) (bar : OHLCV) :
    ∀ (frs : List FillResult) (s0 : σ) (e0 : PaperTradingEngine)
      (p0 : PortfolioSimulator) (eq0 : List ℚ)
      (tl0 : List TradeLogEntry) (tt0 oc0 : ℕ),
    apply_pending_fills { cfg with commission_per_trade := c } bar
      ⟨s0, e0.with_commission c, p0, eq0,
        tl0.map (fun t => t.with_commission c), tt0, oc0⟩ frs =
    Except.map (fun st' => st'.with_commission c)
      (apply_pending_fills cfg bar ⟨s0, e0, p0, eq0, tl0, tt0, oc0⟩
        frs) := by
  intro frs
  induction frs with
  | nil => intro s0 e0 p0 eq0 tl0 tt0 oc0; rfl
  | cons fr rest ih =>
      intro s0 e0 p0 eq0 tl0 tt0 oc0
      unfold apply_pending_fills
      rw [with_commission_apply_pending_fill]
      cases hf : apply_pending_fill cfg bar
          ⟨s0, e0, p0, eq0, tl0, tt0, oc0⟩ fr with
      | error e => simp only [Except.map]
      | ok st' =>
          simp only [Except.map]
          obtain ⟨s1, e1, p1, eq1, tl1, tt1, oc1⟩ := st'
          exact ih s1 e1 p1 eq1 tl1 tt1 oc1

theorem with_commission_bt_step {σ : Type} (cfg : BacktestConfig)
    (c : ℚ) (sid : String) (onData : σ → OHLCV → σ)
    (genSignal : σ → FeatureRow → Option Signal × σ) (bar : OHLCV)
    (s0 : σ) (e0 : PaperTradingEngine) (p0 : PortfolioSimulator)
    (eq0 : List ℚ) (tl0 : List TradeLogEntry) (tt0 oc0 : ℕ) :
    bt_step { cfg with commission_per_trade := c } sid onData genSignal
      ⟨s0, e0.with_commission c, p0, eq0,
        tl0.map (fun t => t.with_commission c), tt0, oc0⟩ bar =
    Except.map (fun st' => st'.with_commission c)
      (bt_step cfg sid onData genSignal
        ⟨s0, e0, p0, eq0, tl0, tt0, oc0⟩ bar) := by
  unfold bt_step
  simp only [with_commission_check_pending,
    with_commission_apply_pending_fills]
  cases hf : apply_pending_fills cfg bar
      ⟨onData s0 bar,
       (e0.check_pending_orders [(bar.symbol, bar.close)]).1,
       p0.update_price bar.symbol bar.close, eq0, tl0, tt0, oc0⟩
      (e0.check_pending_orders [(bar.symbol, bar.close)]).2 with
  | error e => rfl
  | ok st2 =>
      obtain ⟨s2, e2, p2, eq2, tl2, tt2, oc2⟩ := st2
      simp only [Except.map, BTState.with_commission]
      cases hg : (genSignal s2 (extract_features bar)).1 with
      | none => simp [pushEquity, BTState.with_commission]
      | some sig =>
          by_cases hneu : sig.direction = SignalDirection.NEUTRAL
          · simp [hneu, pushEquity, BTState.with_commission]
          · simp only [if_neg hneu]
            by_cases hq : 0 < calculate_quantity p2.cash bar.close
                cfg.position_size_pct
            · simp only [if_pos hq]
              rw [with_commission_submit_order]
              cases hsub : e2.submit_order
                  { id := "bt_" ++ toString (oc2 + 1),
                    symbol := bar.symbol,
                    side := if sig.direction = SignalDirection.LONG
                      then OrderSide.BUY else OrderSide.SELL,
                    order_type := OrderType.MARKET,
                    quantity := calculate_quantity p2.cash bar.close
                      cfg.position_size_pct,
                    price := some bar.close, strategy_id := sid }
                  bar.close with
              | error e => rfl
              | ok q =>
                  obtain ⟨eng2, fr⟩ := q
                  simp only [Except.map]
                  by_cases hst : fr.status = "filled"
                  · simp only [if_pos hst]
                    cases fr.fill_price with
                    | none => simp [pushEquity, BTState.with_commission]
                    | some fp =>
                        dsimp only
                        cases hfq : fr.fill_quantity with
                        | none =>
                            dsimp only
                            cases hex : p2.execute_fill bar.symbol
                                (if sig.direction = SignalDirection.LONG
                                  then OrderSide.BUY else OrderSide.SELL)
                                (calculate_quantity p2.cash bar.close
                                  cfg.position_size_pct) fp with
                            | error e => rfl
                            | ok pf2 =>
                                simp [pushEquity, BTState.with_commission,
                                  TradeLogEntry.with_commission]
                        | some v =>
                            dsimp only
                            by_cases hv : v = 0
                            · simp only [hv, eq_self_iff_true, if_true]
                              cases hex : p2.execute_fill bar.symbol
                                  (if sig.direction =
                                      SignalDirection.LONG
                                    then OrderSide.BUY
                                    else OrderSide.SELL)
                                  (calculate_quantity p2.cash bar.close
                                    cfg.position_size_pct) fp with
                              | error e => rfl
                              | ok pf2 =>
                                  simp [pushEquity,
                                    BTState.with_commission,
                                    TradeLogEntry.with_commission]
                            · simp only [if_neg hv]
                              cases hex : p2.execute_fill bar.symbol
                                  (if sig.direction =
                                      SignalDirection.LONG
                                    then OrderSide.BUY
                                    else OrderSide.SELL) v fp with
                              | error e => rfl
                              | ok pf2 =>
                                  simp [pushEquity,
                                    BTState.with_commission,
                                    TradeLogEntry.with_commission]
                  · simp only [if_neg hst]
                    simp [pushEquity, BTState.with_commission]
            · simp only [if_neg hq]
              simp [pushEquity, BTState.with_commission]

theorem with_commission_bt_run_state {σ : Type} (cfg : BacktestConfig)
    (c : ℚ) (sid : String) (onData : σ → OHLCV → σ)
    (genSignal : σ → FeatureRow → Option Signal × σ) :
    ∀ (bars : List OHLCV) (s0 : σ) (e0 : PaperTradingEngine)
      (p0 : PortfolioSimulator) (eq0 : List ℚ)
      (tl0 : List TradeLogEntry) (tt0 oc0 : ℕ),
    bt_run_state { cfg with commission_per_trade := c } sid onData
      genSignal
      ⟨s0, e0.with_commission c, p0, eq0,
        tl0.map (fun t => t.with_commission c), tt0, oc0⟩ bars =
    Except.map (fun st' => st'.with_commission c)
      (bt_run_state cfg sid onData genSignal
        ⟨s0, e0, p0, eq0, tl0, tt0, oc0⟩ bars) := by
  intro bars
  induction bars with
  | nil => intro s0 e0 p0 eq0 tl0 tt0 oc0; rfl
  | cons bar rest ih =>
      intro s0 e0 p0 eq0 tl0 tt0 oc0
      unfold bt_run_state
      rw [with_commission_bt_step]
      cases hs : bt_step cfg sid onData genSignal
          ⟨s0, e0, p0, eq0, tl0, tt0, oc0⟩ bar with
      | error e => rfl
      | ok st' =>
          simp only [Except.map]
          obtain ⟨s1, e1, p1, eq1, tl1, tt1, oc1⟩ := st'
          exact ih s1 e1 p1 eq1 tl1 tt1 oc1

theorem with_commission_bt_run {σ : Type} (cfg : BacktestConfig)
    (c : ℚ) (sid : String) (onData : σ → OHLCV → σ)
    (genSignal : σ → FeatureRow → Option Signal × σ) (s0 : σ)
    (bars : List OHLCV) :
    bt_run { cfg with commission_per_trade := c } sid onData genSignal
      s0 bars =
    Except.map (fun q =>
      ({ q.1 with
         total_commission := c * q.1.total_trades
         trade_log := q.1.trade_log.map (fun t => t.with_commission c) },
       q.2))
      (bt_run cfg sid onData genSignal s0 bars) := by
  unfold bt_run
  conv_lhs =>
    rw [show PaperTradingEngine.init "instant"
        ({ cfg with commission_per_trade := c} :
          BacktestConfig).slippage_bps
        ({ cfg with commission_per_trade := c} :
          BacktestConfig).commission_per_trade =
      (PaperTradingEngine.init "instant" cfg.slippage_bps
        cfg.commission_per_trade).with_commission c from rfl]
    rw [show ([] : List TradeLogEntry) =
      List.map (fun t => t.with_commission c) ([] : List TradeLogEntry)
      from rfl]
  dsimp only
  rw [with_commission_bt_run_state]
  cases hr : bt_run_state cfg sid onData genSignal
      ⟨s0, PaperTradingEngine.init "instant" cfg.slippage_bps
        cfg.commission_per_trade,
       PortfolioSimulator.init sid cfg.initial_capital, [], [], 0, 0⟩
      bars with
  | error e => rfl
  | ok st =>
      simp only [Except.map]
      obtain ⟨s1, e1, p1, eq1, tl1, tt1, oc1⟩ := st
      simp [BTState.with_commission]

theorem with_commission_fwd_apply_fill {σ : Type} (c : ℚ) (bar : OHLCV)
    (fr : FillResult) (s0 : σ) (sid : String)
    (e0 : PaperTradingEngine) (p0 : PortfolioSimulator) (psp : ℚ)
    (bc tt : ℕ) (eqv : List ℚ) (pz : Bool) :
    fwd_apply_fill bar
      ⟨s0, sid, e0.with_commission c, p0, psp, bc, tt, eqv, pz⟩ fr =
    Except.map (fun f' => f'.with_commission c)
      (fwd_apply_fill bar ⟨s0, sid, e0, p0, psp, bc, tt, eqv, pz⟩
        fr) := by
  unfold fwd_apply_fill
  by_cases h1 : fr.status = "filled"
  · simp only [if_pos h1]
    cases fr.fill_price with
    | none => rfl
    | some fp =>
        simp only [find_order_side_with_commission]
        cases hfs : find_order_side e0 fr.order_id with
        | none => cases fr.fill_quantity <;> rfl
        | some side =>
            cases fr.fill_quantity with
            | none => rfl
            | some fq =>
                cases hex : p0.execute_fill bar.symbol side fq fp with
                | error e =>
                    simp only [hex]
                    rfl
                | ok pf' =>
                    simp only [hex]
                    simp [ForwardRunner.with_commission, Except.map]
  · simp only [if_neg h1]
    rfl

theorem with_commission_fwd_apply_fills {σ : Type} (c : ℚ)
    (bar : OHLCV) :
    ∀ (frs : List FillResult) (s0 : σ) (sid : String)
      (e0 : PaperTradingEngine) (p0 : PortfolioSimulator) (psp : ℚ)
      (bc tt : ℕ) (eqv : List ℚ) (pz : Bool),
    fwd_apply_fills bar
      ⟨s0, sid, e0.with_commission c, p0, psp, bc, tt, eqv, pz⟩ frs =
    Except.map (fun f' => f'.with_commission c)
      (fwd_apply_fills bar ⟨s0, sid, e0, p0, psp, bc, tt, eqv, pz⟩
        frs) := by
  intro frs
  induction frs with
  | nil => intro s0 sid e0 p0 psp bc tt eqv pz; rfl
  | cons fr rest ih =>
      intro s0 sid e0 p0 psp bc tt eqv pz
      unfold fwd_apply_fills
      rw [with_commission_fwd_apply_fill]
      cases hf : fwd_apply_fill bar
          ⟨s0, sid, e0, p0, psp, bc, tt, eqv, pz⟩ fr with
      | error e => rfl
      | ok f' =>
          simp only [Except.map]
          obtain ⟨s1, sid1, e1, p1, psp1, bc1, tt1, eq1, pz1⟩ := f'
          exact ih s1 sid1 e1 p1 psp1 bc1 tt1 eq1 pz1

theorem with_commission_on_bar {σ : Type} (c : ℚ)
    (onData : σ → OHLCV → σ)
    (genSignal : σ → FeatureRow → Option Signal × σ) (bar : OHLCV)
    (s0 : σ) (sid : String) (e0 : PaperTradingEngine)
    (p0 : PortfolioSimulator) (psp : ℚ) (bc tt : ℕ) (eqv : List ℚ)
    (pz : Bool) :
    on_bar onData genSignal
      ⟨s0, sid, e0.with_commission c, p0, psp, bc, tt, eqv, pz⟩ bar =
    Except.map (fun q => (q.1.with_commission c, q.2))
      (on_bar onData genSignal ⟨s0, sid, e0, p0, psp, bc, tt, eqv, pz⟩
        bar) := by
  cases pz with
  | true => rfl
  | false =>
      unfold on_bar
      dsimp only
      simp only [with_commission_check_pending,
        with_commission_fwd_apply_fills]
      cases hf : fwd_apply_fills bar
          ⟨onData s0 bar, sid,
           (e0.check_pending_orders [(bar.symbol, bar.close)]).1,
           p0.update_price bar.symbol bar.close, psp, bc + 1, tt, eqv,
           false⟩
          (e0.check_pending_orders [(bar.symbol, bar.close)]).2 with
      | error e => rfl
      | ok f3 =>
          obtain ⟨s3, sid3, e3, p3, psp3, bc3, tt3, eq3, pz3⟩ := f3
          simp only [Except.map, ForwardRunner.with_commission]
          cases hg : (genSignal s3 (extract_features bar)).1 with
          | none => simp [pushFwdEquity, ForwardRunner.with_commission]
          | some sig =>
              by_cases hneu : sig.direction = SignalDirection.NEUTRAL
              · simp [hneu, pushFwdEquity,
                  ForwardRunner.with_commission]
              · simp only [if_neg hneu]
                by_cases hcc : 0 < p3.cash ∧ 0 < bar.close
                · simp only [if_pos hcc]
                  by_cases hq :
                      0 < (truncQ (p3.cash * psp3 / bar.close) : ℚ)
                  · simp only [if_pos hq]
                    rw [with_commission_submit_order]
                    cases hsub : e3.submit_order
                        { id := "fwd_" ++ toString bc3,
                          symbol := bar.symbol,
                          side := if sig.direction =
                              SignalDirection.LONG
                            then OrderSide.BUY else OrderSide.SELL,
                          order_type := OrderType.MARKET,
                          quantity :=
                            (truncQ (p3.cash * psp3 / bar.close) : ℚ),
                          price := some bar.close,
                          strategy_id := sid3 } bar.close with
                    | error e => rfl
                    | ok q =>
                        obtain ⟨eng2, fr⟩ := q
                        simp only [Except.map]
                        by_cases hst : fr.status = "filled"
                        · simp only [if_pos hst]
                          cases fr.fill_price with
                          | none =>
                              simp [pushFwdEquity,
                                ForwardRunner.with_commission]
                          | some fp =>
                              dsimp only
                              cases hfq : fr.fill_quantity with
                              | none =>
                                  dsimp only
                                  cases hex : p3.execute_fill bar.symbol
                                      (if sig.direction =
                                          SignalDirection.LONG
                                        then OrderSide.BUY
                                        else OrderSide.SELL)
                                      (truncQ (p3.cash * psp3 /
                                        bar.close) : ℚ) fp with
                                  | error e => rfl
                                  | ok pf2 =>
                                      simp [pushFwdEquity,
                                        ForwardRunner.with_commission]
                              | some v =>
                                  dsimp only
                                  by_cases hv : v = 0
                                  · simp only [hv, eq_self_iff_true,
                                      if_true]
                                    cases hex : p3.execute_fill
                                        bar.symbol
                                        (if sig.direction =
                                            SignalDirection.LONG
                                          then OrderSide.BUY
                                          else OrderSide.SELL)
                                        (truncQ (p3.cash * psp3 /
                                          bar.close) : ℚ) fp with
                                    | error e => rfl
                                    | ok pf2 =>
                                        simp [pushFwdEquity,
                                          ForwardRunner.with_commission]
                                  · simp only [if_neg hv]
                                    cases hex : p3.execute_fill
                                        bar.symbol
                                        (if sig.direction =
                                            SignalDirection.LONG
                                          then OrderSide.BUY
                                          else OrderSide.SELL) v fp with
                                    | error e => rfl
                                    | ok pf2 =>
                                        simp [pushFwdEquity,
                                          ForwardRunner.with_commission]
                        · simp only [if_neg hst]
                          simp [pushFwdEquity,
                            ForwardRunner.with_commission]
                  · simp only [if_neg hq]
                    simp [pushFwdEquity, ForwardRunner.with_commission]
                · simp only [if_neg hcc]
                  simp [pushFwdEquity, ForwardRunner.with_commission]

theorem with_commission_fwd_run {σ : Type} (c : ℚ)
    (onData : σ → OHLCV → σ)
    (genSignal : σ → FeatureRow → Option Signal × σ) :
    ∀ (bars : List OHLCV) (s0 : σ) (sid : String)
      (e0 : PaperTradingEngine) (p0 : PortfolioSimulator) (psp : ℚ)
      (bc tt : ℕ) (eqv : List ℚ) (pz : Bool),
    fwd_run onData genSignal
      ⟨s0, sid, e0.with_commission c, p0, psp, bc, tt, eqv, pz⟩ bars =
    Except.map (fun f => f.with_commission c)
      (fwd_run onData genSignal ⟨s0, sid, e0, p0, psp, bc, tt, eqv, pz⟩
        bars) := by
  intro bars
  induction bars with
  | nil => intro s0 sid e0 p0 psp bc tt eqv pz; rfl
  | cons bar rest ih =>
      intro s0 sid e0 p0 psp bc tt eqv pz
      unfold fwd_run
      rw [with_commission_on_bar]
      cases hb : on_bar onData genSignal
          ⟨s0, sid, e0, p0, psp, bc, tt, eqv, pz⟩ bar with
      | error e => rfl
      | ok q =>
          obtain ⟨f', b⟩ := q
          simp only [Except.map]
          obtain ⟨s1, sid1, e1, p1, psp1, bc1, tt1, eq1, pz1⟩ := f'
          exact ih s1 sid1 e1 p1 psp1 bc1 tt1 eq1 pz1

/-- C10: commission never affects bookkeeping.  (i) A backtest run
whose configuration differs only in `commission_per_trade` produces the
same final portfolio (cash, positions, realized PnL), the same equity
curve, trade count, final value and total return; only the reported
`total_commission` and the commission column of the trade log change.
(ii) The same for forward runs: the entire runner state except the
engine's stored commission field is independent of the configured
commission.  (iii) The reported `total_commission` is exactly the
configured commission multiplied by the trade count. -/
theorem commission_noninterference :
    (∀ (σ : Type) (onData : σ → OHLCV → σ)
        (genSignal : σ → FeatureRow → Option Signal × σ) (sid : String)
        (s0 : σ) (cfg : BacktestConfig) (c : ℚ) (bars : List OHLCV),
      bt_run { cfg with commission_per_trade := c } sid onData genSignal
          s0 bars =
        Except.map (fun q =>
          ({ q.1 with
             total_commission := c * q.1.total_trades
             trade_log :=
               q.1.trade_log.map (fun t => t.with_commission c) },
           q.2))
          (bt_run cfg sid onData genSignal s0 bars)) ∧
    (∀ (σ : Type) (onData : σ → OHLCV → σ)
        (genSignal : σ → FeatureRow → Option Signal × σ) (sid : String)
        (s0 : σ) (cap psp slip c : ℚ) (bars : List OHLCV),
      fwd_run onData genSignal
          (ForwardRunner.mkInit sid s0 cap psp slip c) bars =
        Except.map (fun f => f.with_commission c)
          (fwd_run onData genSignal
            (ForwardRunner.mkInit sid s0 cap psp slip 0) bars)) ∧
    (∀ (σ : Type) (onData : σ → OHLCV → σ)
        (genSignal : σ → FeatureRow → Option Signal × σ) (sid : String)
        (s0 : σ) (cfg : BacktestConfig) (bars : List OHLCV)
        (r : BacktestResultE) (pf : PortfolioSimulator),
      bt_run cfg sid onData genSignal s0 bars = Except.ok (r, pf) →
      r.total_commission =
        cfg.commission_per_trade * r.total_trades) := by
  refine ⟨?_, ?_, ?_⟩
  · intro σ onData genSignal sid s0 cfg c bars
    exact with_commission_bt_run cfg c sid onData genSignal s0 bars
  · intro σ onData genSignal sid s0 cap psp slip c bars
    exact with_commission_fwd_run c onData genSignal bars s0 sid
      (PaperTradingEngine.init "instant" slip 0)
      (PortfolioSimulator.init sid cap) psp 0 0 [] false
  · intro σ onData genSignal sid s0 cfg bars r pf h
    unfold bt_run at h
    dsimp only at h
    cases hr : bt_run_state cfg sid onData genSignal
        ⟨s0, PaperTradingEngine.init "instant" cfg.slippage_bps
          cfg.commission_per_trade,
         PortfolioSimulator.init sid cfg.initial_capital, [], [], 0, 0⟩
        bars with
    | error e =>
        rw [hr] at h
        cases h
    | ok st =>
        rw [hr] at h
        injection h with h
        injection h with h1 h2
        subst h1
        rfl

/-- A concrete single-bar configuration for the C10 witness. -/
def witnessCfg : BacktestConfig :=
  { initial_capital := 100000, symbol := "AAPL",
    commission_per_trade := 5, slippage_bps := 0,
    position_size_pct := 1/10 }

def witnessBar : OHLCV :=
  { symbol := "AAPL", open_ := 100, high := 101, low := 99,
    close := 100, volume := 1000 }

theorem commission_noninterference_witness :
    ∃ r pf, bt_run witnessCfg "s" (fun (s : Unit) _ => s)
        (fun s _ => (none, s)) () [witnessBar] = Except.ok (r, pf) ∧
      r.total_commission = 5 * r.total_trades := by
  obtain ⟨r, pf, hrun⟩ : ∃ r pf,
      bt_run witnessCfg "s" (fun (s : Unit) _ => s)
        (fun s _ => (none, s)) () [witnessBar] = Except.ok (r, pf) :=
    ⟨_, _, rfl⟩
  exact ⟨r, pf, hrun,
    commission_noninterference.2.2 Unit (fun s _ => s)
      (fun s _ => (none, s)) "s" () witnessCfg [witnessBar] r pf hrun⟩

end FireBot
